import Mathlib

/-!
# Pong (`src/Pong/pong.js`): shallow embedding

The script keeps the whole game in top-level variables.  They are gathered here in one
record `State`, and every JavaScript function becomes a function `State → State`.

Modelling conventions

* Every number the script stores is an integer of small magnitude (sums and differences of
  the integer constants 6, 8, 9, 10, 40, 210, 250, 400, ...), on which double arithmetic is
  exact; positions and velocities are `Int`, scores are `Nat`.
* `Math.random()` is an explicit argument of type `ℚ`, one argument per call site.  The only
  arithmetic done on a draw is the comparison with `0.5` and the jitter `(r - 0.5) * 20` of
  the AI paddle, both taken in `ℚ`.
* `setTimeout(f, d)` appends the pair `(now + d, f)` to `State.timers`; the clock `now` is
  advanced by the event `advance`, and the event `fire i` runs the `i`-th pending callback
  provided that its deadline has passed.
* `requestAnimationFrame(gameLoop)` increments `State.pending`, the number of queued
  `gameLoop` callbacks; the event `refresh` runs all callbacks queued before the refresh.
* `keys` is restricted to the six keys the script reads.
* Drawing, sounds, the scoreboard text and the cool-down labels are write-only and omitted;
  the winner message is kept.
* `State.shotLog` is a history variable: `shootBullet` appends the side and the creation
  time of each bullet.  No definition reads it.
-/

namespace Pong

/-! ## Constants -/

/-- The value of `canvas.width`. -/
def canvasWidth : Int := 800
/-- The value of `canvas.height`. -/
def canvasHeight : Int := 500
def paddleWidth : Int := 12
def paddleHeight : Int := 80
def paddleSpeed : Int := 10
/-- The value of `paddleSpeed * 0.9`, the step of the AI paddle. -/
def aiPaddleStep : Int := 9
def ballRadius : Int := 10
def bulletSpeed : Int := 8
def freezeTime : Nat := 5000
def gunCooldown : Nat := 3000
def winScore : Nat := 5

/-! ## Data model -/

/-- The two players; also the value of a bullet's `from` field. -/
inductive Side where
  | left
  | right
deriving DecidableEq, Repr

/-- A bullet object `{x, y, vx, from}`. -/
structure Bullet where
  x : Int
  y : Int
  vx : Int
  origin : Side
deriving DecidableEq, Repr

/-- The four callbacks the script passes to `setTimeout`. -/
inductive TimerAction where
  | leftGunReady
  | rightGunReady
  | leftUnfreeze
  | rightUnfreeze
deriving DecidableEq, Repr

/-- A pending `setTimeout` callback with the time from which it may run. -/
structure Timer where
  deadline : Nat
  action : TimerAction
deriving DecidableEq, Repr

/-- The keys read by `handleInput`. -/
inductive Key where
  | w
  | s
  | arrowUp
  | arrowDown
  | d
  | arrowLeft
deriving DecidableEq, Repr

/-- The entries of the `keys` object that the script reads. -/
structure Keys where
  w : Bool
  s : Bool
  arrowUp : Bool
  arrowDown : Bool
  d : Bool
  arrowLeft : Bool
deriving DecidableEq, Repr

/-- Assignment `keys[k] = v`. -/
def Keys.set (ks : Keys) (k : Key) (v : Bool) : Keys :=
  match k with
  | Key.w => { ks with w := v }
  | Key.s => { ks with s := v }
  | Key.arrowUp => { ks with arrowUp := v }
  | Key.arrowDown => { ks with arrowDown := v }
  | Key.d => { ks with d := v }
  | Key.arrowLeft => { ks with arrowLeft := v }

/-- All top-level variables of the script, the clock, the pending callbacks and the
shot history. -/
structure State where
  leftScore : Nat
  rightScore : Nat
  running : Bool
  modeAI : Bool
  leftY : Int
  rightY : Int
  ballX : Int
  ballY : Int
  ballSpeedX : Int
  ballSpeedY : Int
  bullets : List Bullet
  leftGunReady : Bool
  rightGunReady : Bool
  leftFreeze : Bool
  rightFreeze : Bool
  keys : Keys
  winnerMsg : String
  now : Nat
  timers : List Timer
  pending : Nat
  shotLog : List (Side × Nat)
deriving DecidableEq, Repr

/-- The state after the script has been loaded. -/
def init : State where
  leftScore := 0
  rightScore := 0
  running := false
  modeAI := false
  leftY := canvasHeight / 2 - paddleHeight / 2
  rightY := canvasHeight / 2 - paddleHeight / 2
  ballX := canvasWidth / 2
  ballY := canvasHeight / 2
  ballSpeedX := 6
  ballSpeedY := 6
  bullets := []
  leftGunReady := true
  rightGunReady := true
  leftFreeze := false
  rightFreeze := false
  keys := ⟨false, false, false, false, false, false⟩
  winnerMsg := ""
  now := 0
  timers := []
  pending := 0
  shotLog := []

/-- The random draws of one `gameLoop` call: the AI jitter and the two draws of `resetBall`
in each of the two goal branches of `update`. -/
structure Draws where
  ai : ℚ
  rightGoalX : ℚ
  rightGoalY : ℚ
  leftGoalX : ℚ
  leftGoalY : ℚ

/-! ## Game functions -/

/-- Function `resetBall`; `r1` and `r2` are its two `Math.random()` draws. -/
def resetBall (s : State) (r1 r2 : ℚ) : State :=
  { s with
    ballX := canvasWidth / 2
    ballY := canvasHeight / 2
    ballSpeedX := if r1 > 1 / 2 then 6 else -6
    ballSpeedY := if r2 > 1 / 2 then 6 else -6 }

/-- Function `resetGame`. -/
def resetGame (s : State) (r1 r2 : ℚ) : State :=
  resetBall
    { s with
      leftScore := 0
      rightScore := 0
      leftY := canvasHeight / 2 - paddleHeight / 2
      rightY := canvasHeight / 2 - paddleHeight / 2
      winnerMsg := ""
      running := false }
    r1 r2

/-- Function `declareWinner`. -/
def declareWinner (s : State) (winner : String) : State :=
  { s with winnerMsg := winner ++ " Wins!", running := false }

/-- Function `shootBullet`. -/
def shootBullet (s : State) (isLeft : Bool) : State :=
  let s1 :=
    if isLeft = true ∧ s.leftGunReady = true then
      { s with
        bullets := s.bullets ++ [⟨20 + paddleWidth, s.leftY + paddleHeight / 2, bulletSpeed, Side.left⟩]
        leftGunReady := false
        timers := s.timers ++ [⟨s.now + gunCooldown, TimerAction.leftGunReady⟩]
        shotLog := s.shotLog ++ [(Side.left, s.now)] }
    else s
  if isLeft = false ∧ s1.rightGunReady = true then
    { s1 with
      bullets := s1.bullets ++
        [⟨canvasWidth - 20 - paddleWidth, s1.rightY + paddleHeight / 2, -bulletSpeed, Side.right⟩]
      rightGunReady := false
      timers := s1.timers ++ [⟨s1.now + gunCooldown, TimerAction.rightGunReady⟩]
      shotLog := s1.shotLog ++ [(Side.right, s1.now)] }
  else s1

/-- The two statements of `handleInput` that move the left paddle. -/
def moveLeftPaddle (s : State) : State :=
  let s1 :=
    if s.keys.w = true ∧ s.leftY > 0 ∧ s.leftFreeze = false then
      { s with leftY := s.leftY - paddleSpeed }
    else s
  if s1.keys.s = true ∧ s1.leftY < canvasHeight - paddleHeight ∧ s1.leftFreeze = false then
    { s1 with leftY := s1.leftY + paddleSpeed }
  else s1

/-- The `if(modeAI)` statement of `handleInput`; `r` is the draw behind `error`. -/
def moveRightPaddle (s : State) (r : ℚ) : State :=
  if s.modeAI = true then
    if s.rightFreeze = false then
      let center : Int := s.rightY + paddleHeight / 2
      let error : ℚ := (r - 1 / 2) * 20
      if (center : ℚ) < (s.ballY : ℚ) - 10 + error then
        { s with rightY := s.rightY + aiPaddleStep }
      else if (center : ℚ) > (s.ballY : ℚ) + 10 + error then
        { s with rightY := s.rightY - aiPaddleStep }
      else s
    else s
  else
    let s1 :=
      if s.keys.arrowUp = true ∧ s.rightY > 0 ∧ s.rightFreeze = false then
        { s with rightY := s.rightY - paddleSpeed }
      else s
    if s1.keys.arrowDown = true ∧ s1.rightY < canvasHeight - paddleHeight
        ∧ s1.rightFreeze = false then
      { s1 with rightY := s1.rightY + paddleSpeed }
    else s1

/-- The shooting checks at the end of `handleInput`. -/
def shootingChecks (s : State) : State :=
  let s1 :=
    if s.keys.d = true then
      let t := shootBullet s true
      { t with keys := t.keys.set Key.d false }
    else s
  if s1.keys.arrowLeft = true then
    let t := shootBullet s1 false
    { t with keys := t.keys.set Key.arrowLeft false }
  else s1

/-- Function `handleInput`. -/
def handleInput (s : State) (r : ℚ) : State :=
  shootingChecks (moveRightPaddle (moveLeftPaddle s) r)

/-- Ball movement of `update`: `ballX += ballSpeedX; ballY += ballSpeedY`. -/
def moveBall (s : State) : State :=
  { s with ballX := s.ballX + s.ballSpeedX, ballY := s.ballY + s.ballSpeedY }

/-- Wall test of `update`. -/
def wallBounce (s : State) : State :=
  if s.ballY - ballRadius < 0 ∨ s.ballY + ballRadius > canvasHeight then
    { s with ballSpeedY := s.ballSpeedY * -1 }
  else s

/-- Left paddle collision of `update`. -/
def leftPaddleHit (s : State) : State :=
  if s.ballX - ballRadius < 20 + paddleWidth ∧ s.ballY > s.leftY
      ∧ s.ballY < s.leftY + paddleHeight then
    { s with ballSpeedX := s.ballSpeedX * -1, ballX := 20 + paddleWidth + ballRadius }
  else s

/-- Right paddle collision of `update`. -/
def rightPaddleHit (s : State) : State :=
  if s.ballX + ballRadius > canvasWidth - 20 - paddleWidth ∧ s.ballY > s.rightY
      ∧ s.ballY < s.rightY + paddleHeight then
    { s with ballSpeedX := s.ballSpeedX * -1, ballX := canvasWidth - 20 - paddleWidth - ballRadius }
  else s

/-- The part of `update` before the scoring conditionals. -/
def ballPhase (s : State) : State :=
  rightPaddleHit (leftPaddleHit (wallBounce (moveBall s)))

/-- Scoring conditional `if(ballX < 0)` of `update`. -/
def goalRight (s : State) (r1 r2 : ℚ) : State :=
  if s.ballX < 0 then
    let s1 := { s with rightScore := s.rightScore + 1 }
    if s1.rightScore ≥ winScore then declareWinner s1 "Right Player"
    else resetBall s1 r1 r2
  else s

/-- Scoring conditional `if(ballX > canvas.width)` of `update`. -/
def goalLeft (s : State) (r1 r2 : ℚ) : State :=
  if s.ballX > canvasWidth then
    let s1 := { s with leftScore := s.leftScore + 1 }
    if s1.leftScore ≥ winScore then declareWinner s1 "Left Player"
    else resetBall s1 r1 r2
  else s

/-- Both scoring conditionals of `update`, in program order. -/
def scoring (s : State) (d : Draws) : State :=
  goalLeft (goalRight s d.rightGoalX d.rightGoalY) d.leftGoalX d.leftGoalY

/-- Body of the bullet loop of `update` at index `i`. -/
def bulletStep (s : State) (i : Nat) : State :=
  match s.bullets.get? i with
  | none => s
  | some b0 =>
    let b : Bullet := { b0 with x := b0.x + b0.vx }
    let s1 : State := { s with bullets := s.bullets.set i b }
    if b.origin = Side.left ∧ b.x + 5 ≥ canvasWidth - 20 - paddleWidth ∧ b.y > s1.rightY
        ∧ b.y < s1.rightY + paddleHeight then
      { s1 with
        rightFreeze := true
        timers := s1.timers ++ [⟨s1.now + freezeTime, TimerAction.rightUnfreeze⟩]
        bullets := s1.bullets.eraseIdx i }
    else if b.origin = Side.right ∧ b.x - 5 ≤ 20 + paddleWidth ∧ b.y > s1.leftY
        ∧ b.y < s1.leftY + paddleHeight then
      { s1 with
        leftFreeze := true
        timers := s1.timers ++ [⟨s1.now + freezeTime, TimerAction.leftUnfreeze⟩]
        bullets := s1.bullets.eraseIdx i }
    else if b.x < 0 ∨ b.x > canvasWidth then
      { s1 with bullets := s1.bullets.eraseIdx i }
    else s1

/-- The loop `for (let i = n - 1; i >= 0; i--)` over the bullets. -/
def bulletLoop : Nat → State → State
  | 0, s => s
  | i + 1, s => bulletLoop i (bulletStep s i)

/-- Function `update`. -/
def update (s : State) (d : Draws) : State :=
  let s1 := scoring (ballPhase s) d
  bulletLoop s1.bullets.length s1

/-- Function `gameLoop`, one queued animation-frame callback. -/
def gameLoop (s : State) (d : Draws) : State :=
  if s.running = false then s
  else
    let s1 := update (handleInput s d.ai) d
    { s1 with pending := s1.pending + 1 }

/-- The click handler of the Start button. -/
def start (s : State) : State :=
  if s.running = false then { s with running := true, pending := s.pending + 1 } else s

/-- The click handler of the Pause button. -/
def pause (s : State) : State :=
  { s with running := false }

/-- The click handler of the Mode button. -/
def toggleMode (s : State) (r1 r2 : ℚ) : State :=
  resetGame { s with modeAI := !s.modeAI } r1 r2

/-- A display refresh: the callbacks queued so far run in order, callback `i` with the draws
`ds i`; callbacks queued meanwhile wait for the next refresh. -/
def refresh (s : State) (ds : Nat → Draws) : State :=
  (List.range s.pending).foldl (fun t i => gameLoop t (ds i)) { s with pending := 0 }

/-- The body of a timer callback. -/
def runTimer (s : State) (a : TimerAction) : State :=
  match a with
  | TimerAction.leftGunReady => { s with leftGunReady := true }
  | TimerAction.rightGunReady => { s with rightGunReady := true }
  | TimerAction.leftUnfreeze => { s with leftFreeze := false }
  | TimerAction.rightUnfreeze => { s with rightFreeze := false }

/-- The `i`-th pending timer runs if its deadline has passed. -/
def fireTimer (s : State) (i : Nat) : State :=
  match s.timers.get? i with
  | none => s
  | some t =>
    if t.deadline ≤ s.now then runTimer { s with timers := s.timers.eraseIdx i } t.action
    else s

/-- What the browser can deliver to the script. -/
inductive Event where
  | start
  | pause
  | reset (r1 r2 : ℚ)
  | toggleMode (r1 r2 : ℚ)
  | refresh (ds : Nat → Draws)
  | keyDown (k : Key)
  | keyUp (k : Key)
  | advance (dt : Nat)
  | fire (i : Nat)

/-- One event. -/
def step (s : State) : Event → State
  | Event.start => start s
  | Event.pause => pause s
  | Event.reset r1 r2 => resetGame s r1 r2
  | Event.toggleMode r1 r2 => toggleMode s r1 r2
  | Event.refresh ds => refresh s ds
  | Event.keyDown k => { s with keys := s.keys.set k true }
  | Event.keyUp k => { s with keys := s.keys.set k false }
  | Event.advance dt => { s with now := s.now + dt }
  | Event.fire i => fireTimer s i

/-- A sequence of events. -/
def run (s : State) (es : List Event) : State :=
  es.foldl step s

/-- The states the script can be in. -/
def Reachable (s : State) : Prop :=
  ∃ es : List Event, run init es = s

/-- The fields of `t` that the bullet loop never writes are those of `s`. -/
def BulletFrame (s t : State) : Prop :=
  t.leftScore = s.leftScore ∧ t.rightScore = s.rightScore ∧ t.running = s.running ∧
  t.modeAI = s.modeAI ∧ t.leftY = s.leftY ∧ t.rightY = s.rightY ∧ t.ballX = s.ballX ∧
  t.ballY = s.ballY ∧ t.ballSpeedX = s.ballSpeedX ∧ t.ballSpeedY = s.ballSpeedY ∧
  t.leftGunReady = s.leftGunReady ∧ t.rightGunReady = s.rightGunReady ∧ t.keys = s.keys ∧
  t.winnerMsg = s.winnerMsg ∧ t.now = s.now ∧ t.pending = s.pending ∧ t.shotLog = s.shotLog

/-- The creation times of the bullets of one side, oldest first. -/
def shotTimes (side : Side) (log : List (Side × Nat)) : List Nat :=
  (log.filter (fun e => decide (e.1 = side))).map Prod.snd

/-- The timer callback that re-arms the gun of a side. -/
def gunAction : Side → TimerAction
  | Side.left => TimerAction.leftGunReady
  | Side.right => TimerAction.rightGunReady

/-- The gun flag of a side. -/
def gunReady (s : State) : Side → Bool
  | Side.left => s.leftGunReady
  | Side.right => s.rightGunReady

/-- The number of pending callbacks that re-arm the gun of a side. -/
def gunTimers (side : Side) (ts : List Timer) : Nat :=
  ts.countP (fun t => decide (t.action = gunAction side))

/-- Invariant behind the cool-down: the shots of a side are `gunCooldown` apart; at most one
re-arming callback is pending and none when the gun is ready; a ready gun has not fired for
`gunCooldown`; and a pending re-arming callback is due no earlier than `gunCooldown` after
every shot. -/
def GunInv (side : Side) (s : State) : Prop :=
  List.Pairwise (fun a b => a + gunCooldown ≤ b) (shotTimes side s.shotLog) ∧
  gunTimers side s.timers ≤ 1 ∧
  (gunReady s side = true →
    gunTimers side s.timers = 0 ∧ ∀ t ∈ shotTimes side s.shotLog, t + gunCooldown ≤ s.now) ∧
  (∀ τ ∈ s.timers, τ.action = gunAction side →
    ∀ t ∈ shotTimes side s.shotLog, t + gunCooldown ≤ τ.deadline)

/-- The fields of `t` that the cool-down invariant mentions are those of `s`. -/
def GunFrame (s t : State) : Prop :=
  t.timers = s.timers ∧ t.shotLog = s.shotLog ∧ t.now = s.now ∧
  t.leftGunReady = s.leftGunReady ∧ t.rightGunReady = s.rightGunReady

/-! ## Concrete inputs -/

/-- Draws that are all `0.75`, except the AI jitter draw `0.5` (no jitter). -/
def drawsHigh : Draws := ⟨1 / 2, 3 / 4, 3 / 4, 3 / 4, 3 / 4⟩

/-- Switch to 1vAI, start, and let `n` display refreshes pass. -/
def aiRun (n : Nat) : List Event :=
  [Event.toggleMode (3 / 4) (3 / 4), Event.start] ++
    List.replicate n (Event.refresh (fun _ => drawsHigh))

/-- Start a 1v1 game and let `n` display refreshes pass without touching a key. -/
def idleRun (n : Nat) : List Event :=
  Event.start :: List.replicate n (Event.refresh (fun _ => drawsHigh))

/-- A ball about to leave on the left, the left paddle out of its way. -/
def nearLeftGoal (score : Nat) : State :=
  { init with ballX := 4, ballSpeedX := -6, leftY := 0, rightScore := score }

/-- A ball about to leave on the right, the right paddle out of its way. -/
def nearRightGoal (score : Nat) : State :=
  { init with ballX := 798, ballSpeedX := 6, rightY := 0, leftScore := score }

/-- The ball at (795,250) moving (+6,0) towards the right paddle at `rightY`. -/
def ballAtRightEdge (rightY : Int) : State :=
  { init with ballX := 795, ballY := 250, ballSpeedX := 6, ballSpeedY := 0, rightY := rightY }

/-- The ball at (32,250) moving (-6,0) towards the left paddle at 210. -/
def ballAtLeftPaddle : State :=
  { init with ballX := 32, ballY := 250, ballSpeedX := -6, ballSpeedY := 0 }

/-- The ball at (768,250) moving (+6,0) towards the right paddle at 210. -/
def ballAtRightPaddle : State :=
  { init with ballX := 768, ballY := 250, ballSpeedX := 6, ballSpeedY := 0 }

/-- Both paddles frozen while every movement key is held. -/
def frozenAllKeys : State :=
  { init with
    keys := ⟨true, true, true, true, false, false⟩
    leftFreeze := true
    rightFreeze := true }

/-- The left player holds `d`: a shot at time 0, the cool-down callback at time 3000, and a
second shot at once. -/
def twoShots : List Event :=
  [Event.keyDown Key.d, Event.start, Event.refresh (fun _ => drawsHigh), Event.advance 3000,
    Event.fire 0, Event.keyDown Key.d, Event.refresh (fun _ => drawsHigh)]

/-- The timer callback that releases the paddle of a side. -/
def unfreezeAction : Side → TimerAction
  | Side.left => TimerAction.leftUnfreeze
  | Side.right => TimerAction.rightUnfreeze

/-- The freeze flag of the paddle of a side. -/
def freezeFlag (s : State) : Side → Bool
  | Side.left => s.leftFreeze
  | Side.right => s.rightFreeze

/-- A bullet hits the paddle of `side` during the display refresh of `s`: the refresh queues
a callback that releases this paddle, which the script does in the hit branch of the bullet
loop and nowhere else. -/
def paddleHitDuring (side : Side) (s : State) (ds : Nat → Draws) : Prop :=
  ∃ τ ∈ (refresh s ds).timers.drop s.timers.length, τ.action = unfreezeAction side

/-- What a piece of a display refresh does to the freeze of the paddle of `side`: the clock
stands still, a set flag stays set, callbacks are only added, and an added release callback
is due `freezeTime` later and comes with the flag set. -/
def FreezeRel (side : Side) (s u : State) : Prop :=
  u.now = s.now ∧ (freezeFlag s side = true → freezeFlag u side = true) ∧
  ∃ extra : List Timer, u.timers = s.timers ++ extra ∧
    ∀ τ ∈ extra, τ.action = unfreezeAction side →
      τ.deadline = s.now + freezeTime ∧ freezeFlag u side = true

/-- The paddle of `side` is held until time `T`: either `T` has passed, or the flag is set
and no pending or future release callback is due before `T`. -/
def FrozenUntil (side : Side) (T : Nat) (u : State) : Prop :=
  T ≤ u.now ∨
    (T ≤ u.now + freezeTime ∧ freezeFlag u side = true ∧
      ∀ τ ∈ u.timers, τ.action = unfreezeAction side → T ≤ τ.deadline)

/-- One display refresh followed by 16 time-units. -/
def frame : List Event :=
  [Event.refresh (fun _ => drawsHigh), Event.advance 16]

/-- The left player fires at time 0 and again at time 3008, at 16 time-units per refresh;
the first bullet hits the right paddle at time 1456, and the second bullet is one refresh
away from it at time 4464. -/
def secondHitAhead : List Event :=
  [Event.keyDown Key.d, Event.start] ++ (List.replicate 188 frame).flatten ++
    [Event.fire 0, Event.keyDown Key.d] ++ (List.replicate 91 frame).flatten

/-- The left player fires at time 0; after 91 refreshes the bullet is one refresh away
from the right paddle. -/
def firstHitAhead : List Event :=
  [Event.keyDown Key.d, Event.start] ++ List.replicate 91 (Event.refresh (fun _ => drawsHigh))

/-- A bullet after `b.x += b.vx`. -/
def advanceBullet (b : Bullet) : Bullet :=
  { b with x := b.x + b.vx }

/-- The first test of the bullet loop, on an advanced bullet: a bullet from the left at the
right paddle, whose top edge is `rightY`. -/
def hitsRightPaddle (rightY : Int) (b : Bullet) : Bool :=
  decide (b.origin = Side.left ∧ b.x + 5 ≥ canvasWidth - 20 - paddleWidth ∧ b.y > rightY
    ∧ b.y < rightY + paddleHeight)

/-- The second test of the bullet loop, on an advanced bullet: a bullet from the right at
the left paddle, whose top edge is `leftY`. -/
def hitsLeftPaddle (leftY : Int) (b : Bullet) : Bool :=
  decide (b.origin = Side.right ∧ b.x - 5 ≤ 20 + paddleWidth ∧ b.y > leftY
    ∧ b.y < leftY + paddleHeight)

/-- The third test of the bullet loop, on an advanced bullet. -/
def outsideArena (b : Bullet) : Bool :=
  decide (b.x < 0 ∨ b.x > canvasWidth)

/-- An advanced bullet that neither hits the opposing paddle nor leaves the arena. -/
def survives (leftY rightY : Int) (b : Bullet) : Bool :=
  !hitsRightPaddle rightY b && !hitsLeftPaddle leftY b && !outsideArena b

/-- The bullet list described as a map followed by a filter: every bullet is advanced once
and the survivors are kept in their order. -/
def bulletsByFilter (s : State) : List Bullet :=
  (s.bullets.map advanceBullet).filter (survives s.leftY s.rightY)

/-- The flag `rightFreeze` described without the loop: set if some advanced bullet from the
left hits the right paddle, unchanged otherwise. -/
def rightFreezeByFilter (s : State) : Bool :=
  s.rightFreeze || (s.bullets.map advanceBullet).any (hitsRightPaddle s.rightY)

/-- The flag `leftFreeze` described without the loop: set if some advanced bullet from the
right hits the left paddle, unchanged otherwise. -/
def leftFreezeByFilter (s : State) : Bool :=
  s.leftFreeze || (s.bullets.map advanceBullet).any (hitsLeftPaddle s.leftY)

/-- The loop body at index `i` takes the hit branch of the right paddle: it sets
`rightFreeze`, queues the callback that clears it and removes the bullet. -/
def FreezesRight (s : State) (i : Nat) : Prop :=
  (bulletStep s i).rightFreeze = true ∧
  (bulletStep s i).timers = s.timers ++ [⟨s.now + freezeTime, TimerAction.rightUnfreeze⟩] ∧
  (bulletStep s i).bullets = s.bullets.eraseIdx i

/-- The loop body at index `i` takes the hit branch of the left paddle: it sets
`leftFreeze`, queues the callback that clears it and removes the bullet. -/
def FreezesLeft (s : State) (i : Nat) : Prop :=
  (bulletStep s i).leftFreeze = true ∧
  (bulletStep s i).timers = s.timers ++ [⟨s.now + freezeTime, TimerAction.leftUnfreeze⟩] ∧
  (bulletStep s i).bullets = s.bullets.eraseIdx i

/-- The left player fires while the right player moves the paddle up to 170, just above the
bullet's height 250; after 92 refreshes the bullet is at `x = 768`, on the paddle face, and
the right player presses the down key. -/
def pastFaceRun : List Event :=
  [Event.keyDown Key.d, Event.keyDown Key.arrowUp, Event.start] ++
    List.replicate 4 (Event.refresh (fun _ => drawsHigh)) ++ [Event.keyUp Key.arrowUp] ++
    List.replicate 88 (Event.refresh (fun _ => drawsHigh)) ++ [Event.keyDown Key.arrowDown]

/-- The state in which the bullet loop of the refresh after `pastFaceRun` starts: the right
paddle has moved down to 180 and the bullet (768,250) is about to advance to `x = 776`. -/
def pastFaceState : State :=
  scoring (ballPhase (handleInput (run init pastFaceRun) (1 / 2))) drawsHigh

/-- The fields of `t` that describe the paddles, the ball and the mode are those of `s`. -/
def PlayFrame (s t : State) : Prop :=
  t.modeAI = s.modeAI ∧ t.leftY = s.leftY ∧ t.rightY = s.rightY ∧ t.ballX = s.ballX ∧
  t.ballY = s.ballY ∧ t.ballSpeedX = s.ballSpeedX ∧ t.ballSpeedY = s.ballSpeedY

/-- Invariant of the vertical motion of the ball: the speed is 6 or -6, the centre is one of
4, 10, 16, ..., 496, and at the two extreme heights the ball moves away from the wall. -/
def WallInv (s : State) : Prop :=
  (s.ballSpeedY = 6 ∨ s.ballSpeedY = -6) ∧ 4 ≤ s.ballY ∧ s.ballY ≤ 496 ∧ s.ballY % 6 = 4 ∧
  (s.ballY = 496 → s.ballSpeedY = -6) ∧ (s.ballY = 4 → s.ballSpeedY = 6)

/-- Invariant of the key-driven paddles: a multiple of 10 between 0 and 420. -/
def PaddleInv (s : State) : Prop :=
  s.leftY % 10 = 0 ∧ 0 ≤ s.leftY ∧ s.leftY ≤ 420 ∧
  (s.modeAI = false → s.rightY % 10 = 0 ∧ 0 ≤ s.rightY ∧ s.rightY ≤ 420)

/-- Invariant of the horizontal motion of the ball: the speed is 6 or -6, left of `x = 42`
the ball moves left and right of `x = 758` it moves right. -/
def BallXInv (s : State) : Prop :=
  (s.ballSpeedX = 6 ∨ s.ballSpeedX = -6) ∧ (s.ballX < 42 → s.ballSpeedX = -6) ∧
  (s.ballX > 758 → s.ballSpeedX = 6)

/-- The test of the left paddle collision, as `update` evaluates it on `s`. -/
def leftCollision (s : State) : Prop :=
  (wallBounce (moveBall s)).ballX - ballRadius < 20 + paddleWidth ∧
  (wallBounce (moveBall s)).ballY > (wallBounce (moveBall s)).leftY ∧
  (wallBounce (moveBall s)).ballY < (wallBounce (moveBall s)).leftY + paddleHeight

/-- The test of the right paddle collision, as `update` evaluates it on `s`. -/
def rightCollision (s : State) : Prop :=
  (leftPaddleHit (wallBounce (moveBall s))).ballX + ballRadius
      > canvasWidth - 20 - paddleWidth ∧
  (leftPaddleHit (wallBounce (moveBall s))).ballY
      > (leftPaddleHit (wallBounce (moveBall s))).rightY ∧
  (leftPaddleHit (wallBounce (moveBall s))).ballY
      < (leftPaddleHit (wallBounce (moveBall s))).rightY + paddleHeight

/-- Start, Pause and Start again before the next display refresh. -/
def doubleStart : List Event :=
  [Event.start, Event.pause, Event.start]

/-- The right player moves the paddle down to 330; after 59 refreshes the ball, served
down-right, is at (754,388), one tick away from the right paddle. -/
def rightHitAhead : List Event :=
  [Event.keyDown Key.arrowDown, Event.start] ++
    List.replicate 12 (Event.refresh (fun _ => drawsHigh)) ++ [Event.keyUp Key.arrowDown] ++
    List.replicate 47 (Event.refresh (fun _ => drawsHigh))

/-- After a reset that serves the ball down-left the left player moves the paddle down to
330; after 59 refreshes the ball is at (46,388), one tick away from the left paddle. -/
def leftHitAhead : List Event :=
  [Event.reset (1 / 4) (3 / 4), Event.keyDown Key.s, Event.start] ++
    List.replicate 12 (Event.refresh (fun _ => drawsHigh)) ++ [Event.keyUp Key.s] ++
    List.replicate 47 (Event.refresh (fun _ => drawsHigh))

/-- After a reset that serves the ball down-left, 61 refreshes with no key pressed: the ball
passes below the left paddle and is at `x = 34`. -/
def leftPassRun : List Event :=
  [Event.reset (1 / 4) (3 / 4), Event.start] ++
    List.replicate 61 (Event.refresh (fun _ => drawsHigh))

/-! ## Frame lemmas -/

theorem bulletFrame_refl (s : State) : BulletFrame s s := by
  simp [BulletFrame]

theorem bulletFrame_trans {s t u : State} (h1 : BulletFrame s t) (h2 : BulletFrame t u) :
    BulletFrame s u := by
  simp only [BulletFrame] at *
  obtain ⟨a1, a2, a3, a4, a5, a6, a7, a8, a9, a10, a11, a12, a13, a14, a15, a16, a17⟩ := h1
  obtain ⟨b1, b2, b3, b4, b5, b6, b7, b8, b9, b10, b11, b12, b13, b14, b15, b16, b17⟩ := h2
  simp [*]

theorem bulletStep_frame (s : State) (i : Nat) : BulletFrame s (bulletStep s i) := by
  unfold bulletStep
  split
  · exact bulletFrame_refl s
  · simp only []
    split_ifs <;> simp [BulletFrame]

theorem bulletLoop_frame (n : Nat) (s : State) : BulletFrame s (bulletLoop n s) := by
  induction n generalizing s with
  | zero => exact bulletFrame_refl s
  | succ n ih => exact bulletFrame_trans (bulletStep_frame s n) (ih _)

theorem update_frame (s : State) (d : Draws) :
    BulletFrame (scoring (ballPhase s) d) (update s d) :=
  bulletLoop_frame _ _

theorem scoring_cases (s : State) (d : Draws) :
    (s.ballX < 0 ∧ scoring s d = goalRight s d.rightGoalX d.rightGoalY) ∨
    (canvasWidth < s.ballX ∧ scoring s d = goalLeft s d.leftGoalX d.leftGoalY) ∨
    (0 ≤ s.ballX ∧ s.ballX ≤ canvasWidth ∧ scoring s d = s) := by
  by_cases h1 : s.ballX < 0
  · left
    refine ⟨h1, ?_⟩
    simp only [scoring]
    have h2 : ¬ ((goalRight s d.rightGoalX d.rightGoalY).ballX > canvasWidth) := by
      simp only [goalRight, h1, if_true, declareWinner, resetBall, canvasWidth]
      split_ifs <;> simp only [gt_iff_lt, not_lt] <;> omega
    simp only [goalLeft, h2, if_false]
  · by_cases h2 : s.ballX > canvasWidth
    · right; left
      exact ⟨h2, by simp only [scoring, goalRight, h1, if_false]⟩
    · right; right
      refine ⟨by omega, by omega, ?_⟩
      simp only [scoring, goalRight, goalLeft, h1, h2, if_false]

/-! ## C1: paddles and the arena -/

/-- C1 (code evaluated at the failing input): in 1vAI mode with the ball served down-right
and no jitter, the right paddle follows the ball below the arena; after 38 display refreshes
`rightY` is 426, beyond `H - ph = 420`. -/
theorem aiRun_rightY_leaves_arena :
    Reachable (run init (aiRun 38)) ∧ (run init (aiRun 38)).modeAI = true ∧
      (run init (aiRun 38)).rightY = 426 ∧
      ¬ ((run init (aiRun 38)).rightY ≤ canvasHeight - paddleHeight) :=
  ⟨⟨aiRun 38, rfl⟩, by decide!⟩

/-! ## C2: scoring after the winning goal -/

/-- C2 (code evaluated at the failing input): 335 display refreshes of an untouched 1v1 game
give the left player the fifth goal and stop the game; a click on Start and one more refresh
give a sixth goal. -/
theorem start_after_win_scores_again :
    (run init (idleRun 335)).leftScore = 5 ∧ (run init (idleRun 335)).running = false ∧
      (run (run init (idleRun 335))
        [Event.start, Event.refresh (fun _ => drawsHigh)]).leftScore = 6 := by
  decide!

/-! ## C3: goal handling in `update` -/

/-- C3: if the ball is left of the arena after the paddle collisions, `update` adds one to
`rightScore`; if that reaches `winScore` the game stops, the message names the right player
and the ball stays where it is, otherwise the ball is served again from the centre with
speed components 6 or -6 while `running`, `leftScore` and the paddles keep their values.
The same holds, mirrored, if the ball is right of the arena. -/
theorem update_goal_handling (s : State) (d : Draws) :
    ((ballPhase s).ballX < 0 →
      (update s d).rightScore = s.rightScore + 1 ∧
      (s.rightScore + 1 ≥ winScore →
        (update s d).running = false ∧ (update s d).winnerMsg = "Right Player Wins!" ∧
        (update s d).ballX = (ballPhase s).ballX ∧ (update s d).ballY = (ballPhase s).ballY ∧
        (update s d).ballSpeedX = (ballPhase s).ballSpeedX ∧
        (update s d).ballSpeedY = (ballPhase s).ballSpeedY) ∧
      (s.rightScore + 1 < winScore →
        (update s d).ballX = 400 ∧ (update s d).ballY = 250 ∧
        ((update s d).ballSpeedX = 6 ∨ (update s d).ballSpeedX = -6) ∧
        ((update s d).ballSpeedY = 6 ∨ (update s d).ballSpeedY = -6) ∧
        (update s d).running = s.running ∧ (update s d).leftScore = s.leftScore ∧
        (update s d).leftY = s.leftY ∧ (update s d).rightY = s.rightY)) ∧
    ((ballPhase s).ballX > 800 →
      (update s d).leftScore = s.leftScore + 1 ∧
      (s.leftScore + 1 ≥ winScore →
        (update s d).running = false ∧ (update s d).winnerMsg = "Left Player Wins!" ∧
        (update s d).ballX = (ballPhase s).ballX ∧ (update s d).ballY = (ballPhase s).ballY ∧
        (update s d).ballSpeedX = (ballPhase s).ballSpeedX ∧
        (update s d).ballSpeedY = (ballPhase s).ballSpeedY) ∧
      (s.leftScore + 1 < winScore →
        (update s d).ballX = 400 ∧ (update s d).ballY = 250 ∧
        ((update s d).ballSpeedX = 6 ∨ (update s d).ballSpeedX = -6) ∧
        ((update s d).ballSpeedY = 6 ∨ (update s d).ballSpeedY = -6) ∧
        (update s d).running = s.running ∧ (update s d).rightScore = s.rightScore ∧
        (update s d).leftY = s.leftY ∧ (update s d).rightY = s.rightY)) := by
  obtain ⟨f1, f2, f3, -, f5, f6, f7, f8, f9, f10, -, -, -, f14, -, -, -⟩ := update_frame s d
  have p1 : (ballPhase s).rightScore = s.rightScore := by
    simp only [ballPhase, rightPaddleHit, leftPaddleHit, wallBounce, moveBall]
    split_ifs <;> rfl
  have p2 : (ballPhase s).leftScore = s.leftScore := by
    simp only [ballPhase, rightPaddleHit, leftPaddleHit, wallBounce, moveBall]
    split_ifs <;> rfl
  have p3 : (ballPhase s).running = s.running := by
    simp only [ballPhase, rightPaddleHit, leftPaddleHit, wallBounce, moveBall]
    split_ifs <;> rfl
  have p4 : (ballPhase s).leftY = s.leftY := by
    simp only [ballPhase, rightPaddleHit, leftPaddleHit, wallBounce, moveBall]
    split_ifs <;> rfl
  have p5 : (ballPhase s).rightY = s.rightY := by
    simp only [ballPhase, rightPaddleHit, leftPaddleHit, wallBounce, moveBall]
    split_ifs <;> rfl
  rw [f1, f2, f3, f5, f6, f7, f8, f9, f10, f14]
  constructor
  · intro h
    rcases scoring_cases (ballPhase s) d with ⟨-, e⟩ | ⟨h2, -⟩ | ⟨h2, -⟩
    · rw [e]
      simp only [goalRight, h, if_true, p1]
      refine ⟨?_, ?_, ?_⟩
      · split_ifs <;> simp [declareWinner, resetBall, p1]
      · intro hw
        simp [hw, declareWinner]
      · intro hw
        have hw2 : ¬ (s.rightScore + 1 ≥ winScore) := by omega
        simp only [hw2, if_false, resetBall, canvasWidth, canvasHeight, p2, p3, p4, p5]
        refine ⟨by decide, by decide, ?_, ?_, ?_⟩
        · split_ifs <;> simp
        · split_ifs <;> simp
        · simp
    · simp only [canvasWidth] at h2; omega
    · omega
  · intro h
    rcases scoring_cases (ballPhase s) d with ⟨h2, -⟩ | ⟨-, e⟩ | ⟨-, h2, -⟩
    · omega
    · rw [e]
      have h3 : (ballPhase s).ballX > canvasWidth := by simp only [canvasWidth]; omega
      simp only [goalLeft, h3, if_true, p2]
      refine ⟨?_, ?_, ?_⟩
      · split_ifs <;> simp [declareWinner, resetBall, p2]
      · intro hw
        simp [hw, declareWinner]
      · intro hw
        have hw2 : ¬ (s.leftScore + 1 ≥ winScore) := by omega
        simp only [hw2, if_false, resetBall, canvasWidth, canvasHeight, p1, p3, p4, p5]
        refine ⟨by decide, by decide, ?_, ?_, ?_⟩
        · split_ifs <;> simp
        · split_ifs <;> simp
        · simp
    · simp only [canvasWidth] at h2; omega

/-- Witness of `update_goal_handling`: the winning and the ordinary goal on either side. -/
theorem update_goal_handling_witness :
    ((update (nearLeftGoal 4) drawsHigh).rightScore = (nearLeftGoal 4).rightScore + 1 ∧
      (update (nearLeftGoal 4) drawsHigh).running = false) ∧
    ((update (nearLeftGoal 0) drawsHigh).rightScore = (nearLeftGoal 0).rightScore + 1 ∧
      (update (nearLeftGoal 0) drawsHigh).ballX = 400) ∧
    ((update (nearRightGoal 4) drawsHigh).leftScore = (nearRightGoal 4).leftScore + 1 ∧
      (update (nearRightGoal 4) drawsHigh).running = false) ∧
    ((update (nearRightGoal 0) drawsHigh).leftScore = (nearRightGoal 0).leftScore + 1 ∧
      (update (nearRightGoal 0) drawsHigh).ballX = 400) :=
  ⟨⟨((update_goal_handling (nearLeftGoal 4) drawsHigh).1 (by decide)).1,
      (((update_goal_handling (nearLeftGoal 4) drawsHigh).1 (by decide)).2.1 (by decide)).1⟩,
    ⟨((update_goal_handling (nearLeftGoal 0) drawsHigh).1 (by decide)).1,
      (((update_goal_handling (nearLeftGoal 0) drawsHigh).1 (by decide)).2.2 (by decide)).1⟩,
    ⟨((update_goal_handling (nearRightGoal 4) drawsHigh).2 (by decide)).1,
      (((update_goal_handling (nearRightGoal 4) drawsHigh).2 (by decide)).2.1 (by decide)).1⟩,
    ⟨((update_goal_handling (nearRightGoal 0) drawsHigh).2 (by decide)).1,
      (((update_goal_handling (nearRightGoal 0) drawsHigh).2 (by decide)).2.2 (by decide)).1⟩⟩

/-! ## C4: at most one goal per `update` -/

theorem ballPhase_scores (s : State) :
    (ballPhase s).leftScore = s.leftScore ∧ (ballPhase s).rightScore = s.rightScore := by
  simp only [ballPhase, rightPaddleHit, leftPaddleHit, wallBounce, moveBall]
  split_ifs <;> exact ⟨rfl, rfl⟩

theorem goalRight_scores (s : State) (r1 r2 : ℚ) :
    (goalRight s r1 r2).leftScore = s.leftScore ∧
      ((goalRight s r1 r2).rightScore = s.rightScore ∨
        (goalRight s r1 r2).rightScore = s.rightScore + 1) := by
  simp only [goalRight, declareWinner, resetBall]
  split_ifs <;> simp

theorem goalLeft_scores (s : State) (r1 r2 : ℚ) :
    (goalLeft s r1 r2).rightScore = s.rightScore ∧
      ((goalLeft s r1 r2).leftScore = s.leftScore ∨
        (goalLeft s r1 r2).leftScore = s.leftScore + 1) := by
  simp only [goalLeft, declareWinner, resetBall]
  split_ifs <;> simp

/-- C4: one call of `update` leaves both scores as they are, or adds one to exactly one of
them. -/
theorem update_scores_step (s : State) (d : Draws) :
    ((update s d).leftScore = s.leftScore ∧ (update s d).rightScore = s.rightScore) ∨
    ((update s d).leftScore = s.leftScore + 1 ∧ (update s d).rightScore = s.rightScore) ∨
    ((update s d).leftScore = s.leftScore ∧ (update s d).rightScore = s.rightScore + 1) := by
  have hf := update_frame s d
  have hb := ballPhase_scores s
  rw [hf.1, hf.2.1]
  rcases scoring_cases (ballPhase s) d with ⟨-, e⟩ | ⟨-, e⟩ | ⟨-, -, e⟩
  · have hg := goalRight_scores (ballPhase s) d.rightGoalX d.rightGoalY
    rw [e, hg.1, hb.1]
    rcases hg.2 with h | h
    · left; exact ⟨rfl, by rw [h, hb.2]⟩
    · right; right; exact ⟨rfl, by rw [h, hb.2]⟩
  · have hg := goalLeft_scores (ballPhase s) d.leftGoalX d.leftGoalY
    rw [e, hg.1, hb.2]
    rcases hg.2 with h | h
    · left; exact ⟨by rw [h, hb.1], rfl⟩
    · right; left; exact ⟨by rw [h, hb.1], rfl⟩
  · left
    rw [e]
    exact hb

/-! ## C5: the ball at (795,250) moving right -/

/-- C5 as stated fails: with the right paddle at its initial height 210 the ball at
(795,250) moving (+6,0) is deflected by the paddle and no goal is recorded. -/
theorem rightEdge_goal_for_all_paddles_false :
    ¬ ∀ (s : State) (d : Draws), s.ballX = 795 → s.ballY = 250 → s.ballSpeedX = 6 →
        s.ballSpeedY = 0 → s.leftScore = 0 → s.rightScore < 5 →
        (update s d).leftScore = 1 ∧ (update s d).rightScore = s.rightScore ∧
        (update s d).ballX = 400 ∧ (update s d).ballY = 250 ∧
        ((update s d).ballSpeedX = 6 ∨ (update s d).ballSpeedX = -6) ∧
        ((update s d).ballSpeedY = 6 ∨ (update s d).ballSpeedY = -6) := by
  intro h
  have h1 := (h (ballAtRightEdge 210) drawsHigh rfl rfl rfl rfl rfl (by decide)).1
  have h2 : (update (ballAtRightEdge 210) drawsHigh).leftScore = 0 := by decide!
  omega

/-- C5 amended: if the ball is at (795,250) with velocity (+6,0), `leftScore = 0`,
`rightScore < 5` and the right paddle does not cover the height 250 (not
`rightY < 250 < rightY + 80`), one call of `update` ends with `leftScore = 1`, `rightScore`
unchanged and the ball at (400,250) with both speed components 6 or -6. -/
theorem rightEdge_goal_when_paddle_misses (s : State) (d : Draws)
    (hx : s.ballX = 795) (hy : s.ballY = 250) (hvx : s.ballSpeedX = 6) (hvy : s.ballSpeedY = 0)
    (hl : s.leftScore = 0) (_hr : s.rightScore < 5)
    (hp : ¬ (s.rightY < 250 ∧ 250 < s.rightY + 80)) :
    (update s d).leftScore = 1 ∧ (update s d).rightScore = s.rightScore ∧
    (update s d).ballX = 400 ∧ (update s d).ballY = 250 ∧
    ((update s d).ballSpeedX = 6 ∨ (update s d).ballSpeedX = -6) ∧
    ((update s d).ballSpeedY = 6 ∨ (update s d).ballSpeedY = -6) := by
  obtain ⟨f1, f2, -, -, -, -, f7, f8, f9, f10, -⟩ := update_frame s d
  rw [f1, f2, f7, f8, f9, f10]
  have hb : ballPhase s = { s with ballX := 801 } := by
    have hp2 : ¬ (250 > s.rightY ∧ 250 < s.rightY + 80) := fun h => hp ⟨h.1, h.2⟩
    simp [ballPhase, rightPaddleHit, leftPaddleHit, wallBounce, moveBall, hx, hy, hvx, hvy,
      ballRadius, canvasHeight, canvasWidth, paddleWidth, paddleHeight, hp2]
  rw [hb]
  simp only [scoring, goalRight, goalLeft, declareWinner, resetBall, canvasWidth, canvasHeight,
    winScore, hl]
  norm_num
  exact ⟨lt_or_le _ _, lt_or_le _ _⟩

/-- Witness of `rightEdge_goal_when_paddle_misses`: the right paddle at the top. -/
theorem rightEdge_goal_when_paddle_misses_witness :
    (update (ballAtRightEdge 0) drawsHigh).leftScore = 1 ∧
    (update (ballAtRightEdge 0) drawsHigh).rightScore = (ballAtRightEdge 0).rightScore ∧
    (update (ballAtRightEdge 0) drawsHigh).ballX = 400 ∧
    (update (ballAtRightEdge 0) drawsHigh).ballY = 250 ∧
    ((update (ballAtRightEdge 0) drawsHigh).ballSpeedX = 6 ∨
      (update (ballAtRightEdge 0) drawsHigh).ballSpeedX = -6) ∧
    ((update (ballAtRightEdge 0) drawsHigh).ballSpeedY = 6 ∨
      (update (ballAtRightEdge 0) drawsHigh).ballSpeedY = -6) :=
  rightEdge_goal_when_paddle_misses (ballAtRightEdge 0) drawsHigh rfl rfl rfl rfl rfl
    (by decide) (by decide)

/-! ## C6: paddle collisions -/

/-- C6: if the integrated ball reaches the left paddle face (`ballX - 10 < 32`) inside the
paddle's span, `update` negates `ballSpeedX`, puts the ball at `x = 42` and records no goal;
if it reaches the right paddle face (`ballX + 10 > 768`) inside that paddle's span,
`ballSpeedX` is negated, the ball is put at `x = 758` and no goal is recorded.  With the left
paddle at 210 and the ball at (32,250) moving (-6,0) this gives speed +6 and `x = 42`. -/
theorem update_paddle_collision (s : State) (d : Draws) :
    (s.ballX + s.ballSpeedX - 10 < 32 → s.leftY < s.ballY + s.ballSpeedY →
      s.ballY + s.ballSpeedY < s.leftY + 80 →
      (update s d).ballSpeedX = -s.ballSpeedX ∧ (update s d).ballX = 42 ∧
      (update s d).leftScore = s.leftScore ∧ (update s d).rightScore = s.rightScore) ∧
    (s.ballX + s.ballSpeedX + 10 > 768 → s.rightY < s.ballY + s.ballSpeedY →
      s.ballY + s.ballSpeedY < s.rightY + 80 →
      (update s d).ballSpeedX = -s.ballSpeedX ∧ (update s d).ballX = 758 ∧
      (update s d).leftScore = s.leftScore ∧ (update s d).rightScore = s.rightScore) ∧
    (s.leftY = 210 → s.ballX = 32 → s.ballY = 250 → s.ballSpeedX = -6 → s.ballSpeedY = 0 →
      (update s d).ballSpeedX = 6 ∧ (update s d).ballX = 42) := by
  obtain ⟨f1, f2, -, -, -, -, f7, -, f9, -⟩ := update_frame s d
  rw [f1, f2, f7, f9]
  have left_case : s.ballX + s.ballSpeedX - 10 < 32 → s.leftY < s.ballY + s.ballSpeedY →
      s.ballY + s.ballSpeedY < s.leftY + 80 →
      (scoring (ballPhase s) d).ballSpeedX = -s.ballSpeedX ∧
      (scoring (ballPhase s) d).ballX = 42 ∧
      (scoring (ballPhase s) d).leftScore = s.leftScore ∧
      (scoring (ballPhase s) d).rightScore = s.rightScore := by
    intro h1 h2 h3
    have hb : (ballPhase s).ballX = 42 ∧ (ballPhase s).ballSpeedX = -s.ballSpeedX := by
      simp only [ballPhase, rightPaddleHit, leftPaddleHit, wallBounce, moveBall, ballRadius,
        canvasHeight, canvasWidth, paddleWidth, paddleHeight]
      split_ifs <;> simp_all
    rcases scoring_cases (ballPhase s) d with ⟨h, -⟩ | ⟨h, -⟩ | ⟨-, -, e⟩
    · omega
    · simp only [canvasWidth] at h; omega
    · rw [e]
      exact ⟨hb.2, hb.1, ballPhase_scores s⟩
  refine ⟨left_case, ?_, ?_⟩
  · intro h1 h2 h3
    have hb : (ballPhase s).ballX = 758 ∧ (ballPhase s).ballSpeedX = -s.ballSpeedX := by
      simp only [ballPhase, rightPaddleHit, leftPaddleHit, wallBounce, moveBall, ballRadius,
        canvasHeight, canvasWidth, paddleWidth, paddleHeight]
      split_ifs <;> simp_all <;> omega
    rcases scoring_cases (ballPhase s) d with ⟨h, -⟩ | ⟨h, -⟩ | ⟨-, -, e⟩
    · omega
    · simp only [canvasWidth] at h; omega
    · rw [e]
      exact ⟨hb.2, hb.1, ballPhase_scores s⟩
  · intro h1 h2 h3 h4 h5
    have h := left_case (by omega) (by omega) (by omega)
    exact ⟨by rw [h.1, h4]; rfl, h.2.1⟩

/-- Witness of `update_paddle_collision`: the scenario of the left paddle, and its mirror
image at the right paddle. -/
theorem update_paddle_collision_witness :
    ((update ballAtLeftPaddle drawsHigh).ballSpeedX = -ballAtLeftPaddle.ballSpeedX ∧
      (update ballAtLeftPaddle drawsHigh).ballX = 42) ∧
    ((update ballAtRightPaddle drawsHigh).ballSpeedX = -ballAtRightPaddle.ballSpeedX ∧
      (update ballAtRightPaddle drawsHigh).ballX = 758) ∧
    ((update ballAtLeftPaddle drawsHigh).ballSpeedX = 6 ∧
      (update ballAtLeftPaddle drawsHigh).ballX = 42) :=
  ⟨⟨((update_paddle_collision ballAtLeftPaddle drawsHigh).1
        (by decide) (by decide) (by decide)).1,
      ((update_paddle_collision ballAtLeftPaddle drawsHigh).1
        (by decide) (by decide) (by decide)).2.1⟩,
    ⟨((update_paddle_collision ballAtRightPaddle drawsHigh).2.1
        (by decide) (by decide) (by decide)).1,
      ((update_paddle_collision ballAtRightPaddle drawsHigh).2.1
        (by decide) (by decide) (by decide)).2.1⟩,
    (update_paddle_collision ballAtLeftPaddle drawsHigh).2.2 rfl rfl rfl rfl rfl⟩

/-! ## C7: the serve -/

/-- C7: `resetBall` puts the ball at the centre (400,250), gives each speed component the
value 6 or -6, namely 6 exactly when the corresponding draw exceeds 0.5, and changes no other
field of the state. -/
theorem resetBall_serve (s : State) (r1 r2 : ℚ) :
    (resetBall s r1 r2).ballX = 400 ∧ (resetBall s r1 r2).ballY = 250 ∧
    ((resetBall s r1 r2).ballSpeedX = 6 ∨ (resetBall s r1 r2).ballSpeedX = -6) ∧
    ((resetBall s r1 r2).ballSpeedY = 6 ∨ (resetBall s r1 r2).ballSpeedY = -6) ∧
    ((resetBall s r1 r2).ballSpeedX = 6 ↔ r1 > 1 / 2) ∧
    ((resetBall s r1 r2).ballSpeedY = 6 ↔ r2 > 1 / 2) ∧
    resetBall s r1 r2 =
      { s with
        ballX := (resetBall s r1 r2).ballX
        ballY := (resetBall s r1 r2).ballY
        ballSpeedX := (resetBall s r1 r2).ballSpeedX
        ballSpeedY := (resetBall s r1 r2).ballSpeedY } := by
  refine ⟨by simp [resetBall, canvasWidth], by simp [resetBall, canvasHeight], ?_, ?_, ?_, ?_,
    rfl⟩
  · simp only [resetBall]; split_ifs <;> simp
  · simp only [resetBall]; split_ifs <;> simp
  · simp only [resetBall]
    split_ifs with h
    · exact ⟨fun _ => h, fun _ => rfl⟩
    · exact ⟨fun e => absurd e (by decide), fun e => absurd e h⟩
  · simp only [resetBall]
    split_ifs with h
    · exact ⟨fun _ => h, fun _ => rfl⟩
    · exact ⟨fun e => absurd e (by decide), fun e => absurd e h⟩

/-! ## C8: shooting -/

/-- C8: with the left gun ready, `shootBullet(true)` appends the bullet (32, leftY + 40, +8,
left) at the end of the list, clears `leftGunReady` and queues exactly one callback, due
3000 time-units later, whose effect is to set `leftGunReady`; with the left gun not ready it
returns the state unchanged.  `shootBullet(false)` does the same with the bullet
(768, rightY + 40, -8, right) and `rightGunReady`.  Neither call changes the other side's
flag. -/
theorem shootBullet_spec (s : State) :
    (s.leftGunReady = true →
      shootBullet s true =
        { s with
          bullets := s.bullets ++ [⟨32, s.leftY + 40, 8, Side.left⟩]
          leftGunReady := false
          timers := s.timers ++ [⟨s.now + 3000, TimerAction.leftGunReady⟩]
          shotLog := s.shotLog ++ [(Side.left, s.now)] }) ∧
    (s.leftGunReady = false → shootBullet s true = s) ∧
    (s.rightGunReady = true →
      shootBullet s false =
        { s with
          bullets := s.bullets ++ [⟨768, s.rightY + 40, -8, Side.right⟩]
          rightGunReady := false
          timers := s.timers ++ [⟨s.now + 3000, TimerAction.rightGunReady⟩]
          shotLog := s.shotLog ++ [(Side.right, s.now)] }) ∧
    (s.rightGunReady = false → shootBullet s false = s) ∧
    (shootBullet s true).rightGunReady = s.rightGunReady ∧
    (shootBullet s false).leftGunReady = s.leftGunReady ∧
    (∀ t : State, runTimer t TimerAction.leftGunReady = { t with leftGunReady := true }) ∧
    (∀ t : State, runTimer t TimerAction.rightGunReady = { t with rightGunReady := true }) := by
  refine ⟨?_, ?_, ?_, ?_, ?_, ?_, fun _ => rfl, fun _ => rfl⟩
  · intro h
    simp [shootBullet, h, paddleWidth, paddleHeight, bulletSpeed, gunCooldown]
  · intro h
    simp [shootBullet, h]
  · intro h
    simp [shootBullet, h, paddleWidth, paddleHeight, bulletSpeed, gunCooldown, canvasWidth]
  · intro h
    simp [shootBullet, h]
  · simp only [shootBullet]; split_ifs <;> simp_all
  · simp only [shootBullet]; split_ifs <;> simp_all

/-- Witness of `shootBullet_spec`: both guns at the initial state, and both guns again
right after their shot. -/
theorem shootBullet_spec_witness :
    (shootBullet init true =
      { init with
        bullets := init.bullets ++ [⟨32, init.leftY + 40, 8, Side.left⟩]
        leftGunReady := false
        timers := init.timers ++ [⟨init.now + 3000, TimerAction.leftGunReady⟩]
        shotLog := init.shotLog ++ [(Side.left, init.now)] }) ∧
    shootBullet (shootBullet init true) true = shootBullet init true ∧
    (shootBullet init false =
      { init with
        bullets := init.bullets ++ [⟨768, init.rightY + 40, -8, Side.right⟩]
        rightGunReady := false
        timers := init.timers ++ [⟨init.now + 3000, TimerAction.rightGunReady⟩]
        shotLog := init.shotLog ++ [(Side.right, init.now)] }) ∧
    shootBullet (shootBullet init false) false = shootBullet init false :=
  ⟨(shootBullet_spec init).1 rfl,
    (shootBullet_spec (shootBullet init true)).2.1 (by decide),
    (shootBullet_spec init).2.2.1 rfl,
    (shootBullet_spec (shootBullet init false)).2.2.2.1 (by decide)⟩

/-! ## C10: frozen paddles -/

theorem shootBullet_paddles (s : State) (b : Bool) :
    (shootBullet s b).leftY = s.leftY ∧ (shootBullet s b).rightY = s.rightY := by
  simp only [shootBullet]
  split_ifs <;> exact ⟨rfl, rfl⟩

theorem shootingChecks_paddles (s : State) :
    (shootingChecks s).leftY = s.leftY ∧ (shootingChecks s).rightY = s.rightY := by
  simp only [shootingChecks]
  split_ifs <;> simp [shootBullet_paddles]

/-- C10: `handleInput` leaves `rightY` unchanged when `rightFreeze` is set, in either mode,
for all keys and every draw, and leaves `leftY` unchanged when `leftFreeze` is set. -/
theorem handleInput_frozen (s : State) (r : ℚ) :
    (s.rightFreeze = true → (handleInput s r).rightY = s.rightY) ∧
    (s.leftFreeze = true → (handleInput s r).leftY = s.leftY) := by
  constructor
  · intro h
    have h1 : (moveLeftPaddle s).rightFreeze = true ∧ (moveLeftPaddle s).rightY = s.rightY := by
      simp only [moveLeftPaddle]
      split_ifs <;> exact ⟨h, rfl⟩
    rw [handleInput, (shootingChecks_paddles _).2, ← h1.2]
    simp [moveRightPaddle, h1.1]
  · intro h
    have h1 : (moveLeftPaddle s).leftY = s.leftY := by
      simp [moveLeftPaddle, h]
    have h2 : (moveRightPaddle (moveLeftPaddle s) r).leftY = (moveLeftPaddle s).leftY := by
      simp only [moveRightPaddle]
      split_ifs <;> rfl
    rw [handleInput, (shootingChecks_paddles _).1, h2, h1]

/-- Witness of `handleInput_frozen`: every movement key held, both paddles frozen. -/
theorem handleInput_frozen_witness :
    (handleInput frozenAllKeys (1 / 2)).rightY = frozenAllKeys.rightY ∧
    (handleInput frozenAllKeys (1 / 2)).leftY = frozenAllKeys.leftY :=
  ⟨(handleInput_frozen frozenAllKeys (1 / 2)).1 rfl,
    (handleInput_frozen frozenAllKeys (1 / 2)).2 rfl⟩

/-! ## C9: the gun cool-down -/

theorem countP_eraseIdx_add_one {α : Type} (p : α → Bool) (l : List α) (i : Nat) (x : α)
    (h : l.get? i = some x) (hp : p x = true) :
    (l.eraseIdx i).countP p + 1 = l.countP p := by
  induction l generalizing i with
  | nil => simp at h
  | cons a l ih =>
    cases i with
    | zero =>
      simp only [List.get?_cons_zero, Option.some.injEq] at h
      subst h
      simp [List.countP_cons, hp]
    | succ i =>
      simp only [List.get?_cons_succ] at h
      simp only [List.eraseIdx_cons_succ, List.countP_cons]
      have := ih i h
      omega

theorem gunInv_init (side : Side) : GunInv side init := by
  simp [GunInv, init, shotTimes, gunTimers]

/-- The invariant survives a change that adds no re-arming callback of the side, no shot of
the side, does not turn the clock back and keeps the gun flag. -/
theorem gunInv_mono {side : Side} {s t : State} (h : GunInv side s) (extra : List Timer)
    (hex : ∀ τ ∈ extra, τ.action ≠ gunAction side) (ht : t.timers = s.timers ++ extra)
    (hl : shotTimes side t.shotLog = shotTimes side s.shotLog) (hn : s.now ≤ t.now)
    (hr : gunReady t side = gunReady s side) : GunInv side t := by
  obtain ⟨h1, h2, h3, h4⟩ := h
  have hc : gunTimers side t.timers = gunTimers side s.timers := by
    have h0 : List.countP (fun t => decide (t.action = gunAction side)) extra = 0 := by
      rw [List.countP_eq_zero]
      intro a ha
      simpa using hex a ha
    simp only [gunTimers, ht, List.countP_append, h0, Nat.add_zero]
  refine ⟨by rw [hl]; exact h1, by rw [hc]; exact h2, ?_, ?_⟩
  · intro hg
    rw [hr] at hg
    obtain ⟨a, b⟩ := h3 hg
    refine ⟨by rw [hc]; exact a, ?_⟩
    intro x hx
    rw [hl] at hx
    have := b x hx
    omega
  · intro τ hτ ha x hx
    rw [hl] at hx
    rw [ht, List.mem_append] at hτ
    rcases hτ with hτ | hτ
    · exact h4 τ hτ ha x hx
    · exact absurd ha (hex τ hτ)

/-- The invariant survives a change of fields it does not mention. -/
theorem gunInv_of_eq {side : Side} {s t : State} (h : GunInv side s)
    (ht : t.timers = s.timers) (hl : t.shotLog = s.shotLog) (hn : t.now = s.now)
    (h1 : t.leftGunReady = s.leftGunReady) (h2 : t.rightGunReady = s.rightGunReady) :
    GunInv side t := by
  refine gunInv_mono h [] (by simp) (by simp [ht]) (by rw [hl]) (by omega) ?_
  cases side <;> simp [gunReady, h1, h2]

theorem gunInv_fireTimer {side : Side} {s : State} (h : GunInv side s) (i : Nat) :
    GunInv side (fireTimer s i) := by
  unfold fireTimer
  split
  · exact h
  · rename_i t hget
    split_ifs with hd
    · obtain ⟨h1, h2, h3, h4⟩ := h
      have hsub : ∀ τ ∈ s.timers.eraseIdx i, τ ∈ s.timers :=
        fun τ hτ => List.mem_of_mem_eraseIdx hτ
      have hle : gunTimers side (s.timers.eraseIdx i) ≤ gunTimers side s.timers :=
        List.Sublist.countP_le _ (List.eraseIdx_sublist s.timers i)
      have hmem : t ∈ s.timers := List.get?_mem hget
      by_cases ha : t.action = gunAction side
      · -- the re-arming callback of this side runs
        have hcnt := countP_eraseIdx_add_one (fun t => decide (t.action = gunAction side))
          s.timers i t hget (by simpa using ha)
        have hz : gunTimers side (s.timers.eraseIdx i) = 0 := by
          simp only [gunTimers] at h2 ⊢
          omega
        have key : ∀ u : State, u.timers = s.timers.eraseIdx i → u.shotLog = s.shotLog →
            u.now = s.now → GunInv side u := by
          intro u e1 e2 e3
          refine ⟨by rw [e2]; exact h1, by rw [e1, hz]; omega, ?_, ?_⟩
          · intro _
            refine ⟨by rw [e1]; exact hz, ?_⟩
            intro x hx
            rw [e2] at hx
            have := h4 t hmem ha x hx
            omega
          · intro τ hτ ha2 x hx
            rw [e1] at hτ
            rw [e2] at hx
            exact h4 τ (hsub τ hτ) ha2 x hx
        cases side <;> cases hact : t.action <;> simp_all [runTimer, gunAction]
      · -- another callback runs
        have key : ∀ u : State, u.timers = s.timers.eraseIdx i → u.shotLog = s.shotLog →
            u.now = s.now → gunReady u side = gunReady s side → GunInv side u := by
          intro u e1 e2 e3 e4
          refine ⟨by rw [e2]; exact h1, by rw [e1]; omega, ?_, ?_⟩
          · intro hg
            rw [e4] at hg
            obtain ⟨a, b⟩ := h3 hg
            refine ⟨by rw [e1]; omega, ?_⟩
            intro x hx
            rw [e2] at hx
            have := b x hx
            omega
          · intro τ hτ ha2 x hx
            rw [e1] at hτ
            rw [e2] at hx
            exact h4 τ (hsub τ hτ) ha2 x hx
        cases side <;> cases hact : t.action <;> simp_all [runTimer, gunAction] <;>
          exact key _ rfl rfl rfl rfl
    · exact h

theorem shotTimes_append (side : Side) (l1 l2 : List (Side × Nat)) :
    shotTimes side (l1 ++ l2) = shotTimes side l1 ++ shotTimes side l2 := by
  simp [shotTimes]

/-- The invariant survives a shot of its own side fired from a ready gun. -/
theorem gunInv_shot {side : Side} {s t : State} (h : GunInv side s)
    (hg : gunReady s side = true) (hg2 : gunReady t side = false)
    (ht : t.timers = s.timers ++ [⟨s.now + gunCooldown, gunAction side⟩])
    (hl : t.shotLog = s.shotLog ++ [(side, s.now)]) : GunInv side t := by
  obtain ⟨h1, -, h3, -⟩ := h
  obtain ⟨hz, hold⟩ := h3 hg
  have hlog : shotTimes side t.shotLog = shotTimes side s.shotLog ++ [s.now] := by
    rw [hl, shotTimes_append]
    simp [shotTimes]
  have hnone : ∀ τ ∈ s.timers, ¬ τ.action = gunAction side := by
    simpa [gunTimers] using hz
  refine ⟨?_, ?_, ?_, ?_⟩
  · rw [hlog, List.pairwise_append]
    refine ⟨h1, List.pairwise_singleton _ _, ?_⟩
    intro a ha b hb
    rw [List.mem_singleton] at hb
    subst hb
    exact hold a ha
  · simp only [gunTimers] at hz ⊢
    rw [ht, List.countP_append, hz]
    simp
  · intro hg3
    rw [hg2] at hg3
    exact absurd hg3 (by decide)
  · intro τ hτ ha x hx
    rw [hlog, List.mem_append, List.mem_singleton] at hx
    rw [ht, List.mem_append, List.mem_singleton] at hτ
    rcases hτ with hτ | hτ
    · exact absurd ha (hnone τ hτ)
    · subst hτ
      rcases hx with hx | hx
      · have := hold x hx
        simp only
        omega
      · subst hx
        exact Nat.le_refl _

theorem gunInv_shootBullet {side : Side} {s : State} (h : GunInv side s) (b : Bool) :
    GunInv side (shootBullet s b) := by
  cases b
  · -- the right gun
    by_cases hr : s.rightGunReady = true
    · have e : shootBullet s false =
          { s with
            bullets := s.bullets ++
              [⟨canvasWidth - 20 - paddleWidth, s.rightY + paddleHeight / 2, -bulletSpeed,
                Side.right⟩]
            rightGunReady := false
            timers := s.timers ++ [⟨s.now + gunCooldown, TimerAction.rightGunReady⟩]
            shotLog := s.shotLog ++ [(Side.right, s.now)] } := by
        simp [shootBullet, hr]
      rw [e]
      cases side
      · exact gunInv_mono h [⟨s.now + gunCooldown, TimerAction.rightGunReady⟩]
          (by simp [gunAction]) rfl (by simp [shotTimes]) (Nat.le_refl _) rfl
      · exact gunInv_shot h hr rfl rfl rfl
    · have e : shootBullet s false = s := by simp [shootBullet, hr]
      rw [e]
      exact h
  · -- the left gun
    by_cases hr : s.leftGunReady = true
    · have e : shootBullet s true =
          { s with
            bullets := s.bullets ++
              [⟨20 + paddleWidth, s.leftY + paddleHeight / 2, bulletSpeed, Side.left⟩]
            leftGunReady := false
            timers := s.timers ++ [⟨s.now + gunCooldown, TimerAction.leftGunReady⟩]
            shotLog := s.shotLog ++ [(Side.left, s.now)] } := by
        simp [shootBullet, hr]
      rw [e]
      cases side
      · exact gunInv_shot h hr rfl rfl rfl
      · exact gunInv_mono h [⟨s.now + gunCooldown, TimerAction.leftGunReady⟩]
          (by simp [gunAction]) rfl (by simp [shotTimes]) (Nat.le_refl _) rfl
    · have e : shootBullet s true = s := by simp [shootBullet, hr]
      rw [e]
      exact h

theorem gunInv_handleInput {side : Side} {s : State} (h : GunInv side s) (r : ℚ) :
    GunInv side (handleInput s r) := by
  have h1 : GunInv side (moveLeftPaddle s) := by
    refine gunInv_of_eq h ?_ ?_ ?_ ?_ ?_ <;>
      (simp only [moveLeftPaddle]; split_ifs <;> rfl)
  have h2 : GunInv side (moveRightPaddle (moveLeftPaddle s) r) := by
    refine gunInv_of_eq h1 ?_ ?_ ?_ ?_ ?_ <;>
      (simp only [moveRightPaddle]; split_ifs <;> rfl)
  have h3 : ∀ u : State, GunInv side u → GunInv side (shootingChecks u) := by
    intro u hu
    have a : ∀ (v : State) (k : Key), GunInv side v →
        GunInv side { v with keys := v.keys.set k false } :=
      fun v k hv => gunInv_of_eq hv rfl rfl rfl rfl rfl
    simp only [shootingChecks]
    split_ifs
    · exact a _ _ (gunInv_shootBullet (a _ _ (gunInv_shootBullet hu true)) false)
    · exact a _ _ (gunInv_shootBullet hu true)
    · exact a _ _ (gunInv_shootBullet hu false)
    · exact hu
  exact h3 _ h2

theorem gunInv_bulletStep {side : Side} {s : State} (h : GunInv side s) (i : Nat) :
    GunInv side (bulletStep s i) := by
  unfold bulletStep
  split
  · exact h
  · simp only []
    split_ifs
    · exact gunInv_mono h [_] (by cases side <;> simp [gunAction]) rfl rfl (Nat.le_refl _)
        (by cases side <;> rfl)
    · exact gunInv_mono h [_] (by cases side <;> simp [gunAction]) rfl rfl (Nat.le_refl _)
        (by cases side <;> rfl)
    · exact gunInv_of_eq h rfl rfl rfl rfl rfl
    · exact gunInv_of_eq h rfl rfl rfl rfl rfl

theorem gunInv_bulletLoop {side : Side} (n : Nat) {s : State} (h : GunInv side s) :
    GunInv side (bulletLoop n s) := by
  induction n generalizing s with
  | zero => exact h
  | succ n ih => exact ih (gunInv_bulletStep h n)

theorem gunFrame_trans {s t u : State} (h1 : GunFrame s t) (h2 : GunFrame t u) :
    GunFrame s u := by
  obtain ⟨a1, a2, a3, a4, a5⟩ := h1
  obtain ⟨b1, b2, b3, b4, b5⟩ := h2
  exact ⟨b1.trans a1, b2.trans a2, b3.trans a3, b4.trans a4, b5.trans a5⟩

theorem gunInv_of_frame {side : Side} {s t : State} (h : GunInv side s) (hf : GunFrame s t) :
    GunInv side t :=
  gunInv_of_eq h hf.1 hf.2.1 hf.2.2.1 hf.2.2.2.1 hf.2.2.2.2

theorem ballPhase_gunFrame (s : State) : GunFrame s (ballPhase s) := by
  have a : GunFrame s (moveBall s) := ⟨rfl, rfl, rfl, rfl, rfl⟩
  have b : ∀ u : State, GunFrame u (wallBounce u) := by
    intro u; simp only [wallBounce]; split_ifs <;> exact ⟨rfl, rfl, rfl, rfl, rfl⟩
  have c : ∀ u : State, GunFrame u (leftPaddleHit u) := by
    intro u; simp only [leftPaddleHit]; split_ifs <;> exact ⟨rfl, rfl, rfl, rfl, rfl⟩
  have e : ∀ u : State, GunFrame u (rightPaddleHit u) := by
    intro u; simp only [rightPaddleHit]; split_ifs <;> exact ⟨rfl, rfl, rfl, rfl, rfl⟩
  exact gunFrame_trans (gunFrame_trans (gunFrame_trans a (b _)) (c _)) (e _)

theorem scoring_gunFrame (s : State) (d : Draws) : GunFrame s (scoring s d) := by
  have a : ∀ (u : State) (r1 r2 : ℚ), GunFrame u (goalRight u r1 r2) := by
    intro u r1 r2
    simp only [goalRight, declareWinner, resetBall]
    split_ifs <;> exact ⟨rfl, rfl, rfl, rfl, rfl⟩
  have b : ∀ (u : State) (r1 r2 : ℚ), GunFrame u (goalLeft u r1 r2) := by
    intro u r1 r2
    simp only [goalLeft, declareWinner, resetBall]
    split_ifs <;> exact ⟨rfl, rfl, rfl, rfl, rfl⟩
  exact gunFrame_trans (a _ _ _) (b _ _ _)

theorem gunInv_update {side : Side} {s : State} (h : GunInv side s) (d : Draws) :
    GunInv side (update s d) :=
  gunInv_bulletLoop _
    (gunInv_of_frame h (gunFrame_trans (ballPhase_gunFrame s) (scoring_gunFrame _ d)))

theorem gunInv_gameLoop {side : Side} {s : State} (h : GunInv side s) (d : Draws) :
    GunInv side (gameLoop s d) := by
  simp only [gameLoop]
  split_ifs
  · exact h
  · exact gunInv_of_eq (gunInv_update (gunInv_handleInput h d.ai) d) rfl rfl rfl rfl rfl

theorem gunInv_refresh {side : Side} {s : State} (h : GunInv side s) (ds : Nat → Draws) :
    GunInv side (refresh s ds) := by
  have h0 : GunInv side { s with pending := 0 } := gunInv_of_eq h rfl rfl rfl rfl rfl
  have hfold : ∀ (l : List Nat) (u : State), GunInv side u →
      GunInv side (l.foldl (fun t i => gameLoop t (ds i)) u) := by
    intro l
    induction l with
    | nil => intro u hu; exact hu
    | cons a l ih => intro u hu; exact ih _ (gunInv_gameLoop hu (ds a))
  exact hfold _ _ h0

theorem gunInv_step {side : Side} {s : State} (h : GunInv side s) (e : Event) :
    GunInv side (step s e) := by
  cases e with
  | start =>
    simp only [step, start]
    split_ifs
    · exact gunInv_of_eq h rfl rfl rfl rfl rfl
    · exact h
  | pause => exact gunInv_of_eq h rfl rfl rfl rfl rfl
  | reset r1 r2 => exact gunInv_of_eq h rfl rfl rfl rfl rfl
  | toggleMode r1 r2 => exact gunInv_of_eq h rfl rfl rfl rfl rfl
  | refresh ds => exact gunInv_refresh h ds
  | keyDown k => exact gunInv_of_eq h rfl rfl rfl rfl rfl
  | keyUp k => exact gunInv_of_eq h rfl rfl rfl rfl rfl
  | advance dt =>
    exact gunInv_mono h [] (by simp) (by simp [step]) rfl (by simp [step])
      (by cases side <;> rfl)
  | fire i => exact gunInv_fireTimer h i

theorem gunInv_run {side : Side} (es : List Event) {s : State} (h : GunInv side s) :
    GunInv side (run s es) := by
  induction es generalizing s with
  | nil => exact h
  | cons e es ih => exact ih (gunInv_step h e)

/-- The bound of the cool-down is attained: two shots of the left gun 3000 time-units
apart. -/
theorem twoShots_times : shotTimes Side.left (run init twoShots).shotLog = [0, 3000] := by
  decide!

/-- C9: in every execution from the initial state, whatever the interleaving of clicks,
display refreshes, key events, clock advances and timer expiries, the creation times of the
bullets of one side, listed oldest first, are pairwise at least `gunCooldown` = 3000
time-units apart; in particular so are any two successive ones. -/
theorem gun_cooldown_enforced (es : List Event) (side : Side) :
    List.Pairwise (fun a b => a + 3000 ≤ b) (shotTimes side (run init es).shotLog) :=
  (gunInv_run es (gunInv_init side)).1

/-! ## C11: how long a freeze lasts -/

theorem freezeRel_refl (side : Side) (s : State) : FreezeRel side s s :=
  ⟨rfl, fun h => h, [], by simp, by simp⟩

theorem freezeRel_trans {side : Side} {s t u : State} (h1 : FreezeRel side s t)
    (h2 : FreezeRel side t u) : FreezeRel side s u := by
  obtain ⟨a1, a2, e1, a3, a4⟩ := h1
  obtain ⟨b1, b2, e2, b3, b4⟩ := h2
  refine ⟨b1.trans a1, fun h => b2 (a2 h), e1 ++ e2, by rw [b3, a3, List.append_assoc], ?_⟩
  intro τ hτ ha
  rw [List.mem_append] at hτ
  rcases hτ with hτ | hτ
  · exact ⟨(a4 τ hτ ha).1, b2 (a4 τ hτ ha).2⟩
  · have := b4 τ hτ ha
    rw [a1] at this
    exact this

/-- A change that keeps the clock and the freeze flags and adds only callbacks that release
no paddle. -/
theorem freezeRel_of_append {side : Side} {s u : State} (extra : List Timer)
    (hn : u.now = s.now) (hl : u.leftFreeze = s.leftFreeze)
    (hr : u.rightFreeze = s.rightFreeze) (ht : u.timers = s.timers ++ extra)
    (hex : ∀ τ ∈ extra, τ.action ≠ unfreezeAction side) : FreezeRel side s u := by
  refine ⟨hn, ?_, extra, ht, fun τ hτ ha => absurd ha (hex τ hτ)⟩
  cases side <;> simp [freezeFlag, hl, hr]

theorem freezeRel_of_eq {side : Side} {s u : State}
    (hn : u.now = s.now) (hl : u.leftFreeze = s.leftFreeze)
    (hr : u.rightFreeze = s.rightFreeze) (ht : u.timers = s.timers) : FreezeRel side s u :=
  freezeRel_of_append [] hn hl hr (by simp [ht]) (by simp)

theorem freezeRel_shootBullet (side : Side) (s : State) (b : Bool) :
    FreezeRel side s (shootBullet s b) := by
  have a : ∀ (u : State) (c : Bool), FreezeRel side u
      (if c = true ∧ u.leftGunReady = true then
        { u with
          bullets := u.bullets ++
            [⟨20 + paddleWidth, u.leftY + paddleHeight / 2, bulletSpeed, Side.left⟩]
          leftGunReady := false
          timers := u.timers ++ [⟨u.now + gunCooldown, TimerAction.leftGunReady⟩]
          shotLog := u.shotLog ++ [(Side.left, u.now)] }
      else u) := by
    intro u c
    split_ifs
    · exact freezeRel_of_append [_] rfl rfl rfl rfl (by cases side <;> simp [unfreezeAction])
    · exact freezeRel_refl side u
  have c : ∀ (u : State) (c : Bool), FreezeRel side u
      (if c = false ∧ u.rightGunReady = true then
        { u with
          bullets := u.bullets ++
            [⟨canvasWidth - 20 - paddleWidth, u.rightY + paddleHeight / 2, -bulletSpeed,
              Side.right⟩]
          rightGunReady := false
          timers := u.timers ++ [⟨u.now + gunCooldown, TimerAction.rightGunReady⟩]
          shotLog := u.shotLog ++ [(Side.right, u.now)] }
      else u) := by
    intro u c
    split_ifs
    · exact freezeRel_of_append [_] rfl rfl rfl rfl (by cases side <;> simp [unfreezeAction])
    · exact freezeRel_refl side u
  exact freezeRel_trans (a s b) (c _ b)

theorem freezeRel_handleInput (side : Side) (s : State) (r : ℚ) :
    FreezeRel side s (handleInput s r) := by
  have h1 : FreezeRel side s (moveLeftPaddle s) := by
    refine freezeRel_of_eq ?_ ?_ ?_ ?_ <;> (simp only [moveLeftPaddle]; split_ifs <;> rfl)
  have h2 : ∀ u : State, FreezeRel side u (moveRightPaddle u r) := by
    intro u
    refine freezeRel_of_eq ?_ ?_ ?_ ?_ <;> (simp only [moveRightPaddle]; split_ifs <;> rfl)
  have k : ∀ (v : State) (key : Key),
      FreezeRel side v { v with keys := v.keys.set key false } :=
    fun v key => freezeRel_of_eq rfl rfl rfl rfl
  have h3 : ∀ u : State, FreezeRel side u (shootingChecks u) := by
    intro u
    simp only [shootingChecks]
    split_ifs
    · exact freezeRel_trans (freezeRel_trans (freezeRel_shootBullet side u true) (k _ _))
        (freezeRel_trans (freezeRel_shootBullet side _ false) (k _ _))
    · exact freezeRel_trans (freezeRel_shootBullet side u true) (k _ _)
    · exact freezeRel_trans (freezeRel_shootBullet side u false) (k _ _)
    · exact freezeRel_refl side u
  exact freezeRel_trans (freezeRel_trans h1 (h2 _)) (h3 _)

theorem freezeRel_bulletStep (side : Side) (s : State) (i : Nat) :
    FreezeRel side s (bulletStep s i) := by
  unfold bulletStep
  split
  · exact freezeRel_refl side s
  · simp only []
    split_ifs
    · cases side
      · exact ⟨rfl, fun h => h, [_], rfl, by simp [unfreezeAction]⟩
      · exact ⟨rfl, fun _ => rfl, [_], rfl, by simp [freezeFlag]⟩
    · cases side
      · exact ⟨rfl, fun _ => rfl, [_], rfl, by simp [freezeFlag]⟩
      · exact ⟨rfl, fun h => h, [_], rfl, by simp [unfreezeAction]⟩
    · exact freezeRel_of_eq rfl rfl rfl rfl
    · exact freezeRel_of_eq rfl rfl rfl rfl

theorem freezeRel_bulletLoop (side : Side) (n : Nat) (s : State) :
    FreezeRel side s (bulletLoop n s) := by
  induction n generalizing s with
  | zero => exact freezeRel_refl side s
  | succ n ih => exact freezeRel_trans (freezeRel_bulletStep side s n) (ih _)

theorem ballPhase_freezes (s : State) :
    (ballPhase s).leftFreeze = s.leftFreeze ∧ (ballPhase s).rightFreeze = s.rightFreeze := by
  simp only [ballPhase, rightPaddleHit, leftPaddleHit, wallBounce, moveBall]
  split_ifs <;> exact ⟨rfl, rfl⟩

theorem scoring_freezes (s : State) (d : Draws) :
    (scoring s d).leftFreeze = s.leftFreeze ∧ (scoring s d).rightFreeze = s.rightFreeze := by
  have a : ∀ (u : State) (r1 r2 : ℚ), (goalRight u r1 r2).leftFreeze = u.leftFreeze ∧
      (goalRight u r1 r2).rightFreeze = u.rightFreeze := by
    intro u r1 r2
    simp only [goalRight, declareWinner, resetBall]
    split_ifs <;> exact ⟨rfl, rfl⟩
  have b : ∀ (u : State) (r1 r2 : ℚ), (goalLeft u r1 r2).leftFreeze = u.leftFreeze ∧
      (goalLeft u r1 r2).rightFreeze = u.rightFreeze := by
    intro u r1 r2
    simp only [goalLeft, declareWinner, resetBall]
    split_ifs <;> exact ⟨rfl, rfl⟩
  simp only [scoring]
  exact ⟨(b _ _ _).1.trans (a _ _ _).1, (b _ _ _).2.trans (a _ _ _).2⟩

theorem freezeRel_update (side : Side) (s : State) (d : Draws) :
    FreezeRel side s (update s d) := by
  have g := gunFrame_trans (ballPhase_gunFrame s) (scoring_gunFrame (ballPhase s) d)
  have h1 : FreezeRel side s (scoring (ballPhase s) d) :=
    freezeRel_of_eq g.2.2.1
      ((scoring_freezes _ d).1.trans (ballPhase_freezes s).1)
      ((scoring_freezes _ d).2.trans (ballPhase_freezes s).2) g.1
  exact freezeRel_trans h1 (freezeRel_bulletLoop side _ _)

theorem freezeRel_gameLoop (side : Side) (s : State) (d : Draws) :
    FreezeRel side s (gameLoop s d) := by
  simp only [gameLoop]
  split_ifs
  · exact freezeRel_refl side s
  · exact freezeRel_trans
      (freezeRel_trans (freezeRel_handleInput side s d.ai) (freezeRel_update side _ d))
      (freezeRel_of_eq rfl rfl rfl rfl)

theorem freezeRel_refresh (side : Side) (s : State) (ds : Nat → Draws) :
    FreezeRel side s (refresh s ds) := by
  have h0 : FreezeRel side s { s with pending := 0 } := freezeRel_of_eq rfl rfl rfl rfl
  have hfold : ∀ (l : List Nat) (u : State),
      FreezeRel side u (l.foldl (fun t i => gameLoop t (ds i)) u) := by
    intro l
    induction l with
    | nil => intro u; exact freezeRel_refl side u
    | cons a l ih => intro u; exact freezeRel_trans (freezeRel_gameLoop side u (ds a)) (ih _)
  exact freezeRel_trans h0 (hfold _ _)

theorem frozenUntil_step {side : Side} {T : Nat} {u : State} (h : FrozenUntil side T u)
    (e : Event) : FrozenUntil side T (step u e) := by
  have same : ∀ v : State, v.now = u.now → v.timers = u.timers →
      v.leftFreeze = u.leftFreeze → v.rightFreeze = u.rightFreeze →
      FrozenUntil side T v := by
    intro v e1 e2 e3 e4
    have e5 : freezeFlag v side = freezeFlag u side := by
      cases side <;> simp [freezeFlag, e3, e4]
    simpa only [FrozenUntil, e1, e2, e5] using h
  cases e with
  | start =>
    simp only [step, start]
    split_ifs
    · exact same _ rfl rfl rfl rfl
    · exact h
  | pause => exact same _ rfl rfl rfl rfl
  | reset r1 r2 => exact same _ rfl rfl rfl rfl
  | toggleMode r1 r2 => exact same _ rfl rfl rfl rfl
  | keyDown k => exact same _ rfl rfl rfl rfl
  | keyUp k => exact same _ rfl rfl rfl rfl
  | advance dt =>
    rcases h with h | ⟨h1, h2, h3⟩
    · left
      simp only [step]
      omega
    · right
      refine ⟨?_, h2, h3⟩
      simp only [step]
      omega
  | refresh ds =>
    obtain ⟨r1, r2, extra, r3, r4⟩ := freezeRel_refresh side u ds
    simp only [step]
    rcases h with h | ⟨h1, h2, h3⟩
    · left
      omega
    · right
      refine ⟨by omega, r2 h2, ?_⟩
      intro τ hτ ha
      rw [r3, List.mem_append] at hτ
      rcases hτ with hτ | hτ
      · exact h3 τ hτ ha
      · have := (r4 τ hτ ha).1
        omega
  | fire i =>
    simp only [step, fireTimer]
    split
    · exact h
    · rename_i t hget
      split_ifs with hd
      · rcases h with h | ⟨h1, h2, h3⟩
        · left
          cases t.action <;> exact h
        · by_cases ha : t.action = unfreezeAction side
          · left
            have := h3 t (List.get?_mem hget) ha
            have e : ∀ a : TimerAction,
                (runTimer { u with timers := u.timers.eraseIdx i } a).now = u.now := by
              intro a; cases a <;> rfl
            rw [e]
            omega
          · right
            have e1 : ∀ a : TimerAction,
                (runTimer { u with timers := u.timers.eraseIdx i } a).now = u.now := by
              intro a; cases a <;> rfl
            have e2 : ∀ a : TimerAction,
                (runTimer { u with timers := u.timers.eraseIdx i } a).timers =
                  u.timers.eraseIdx i := by
              intro a; cases a <;> rfl
            have e3 : freezeFlag (runTimer { u with timers := u.timers.eraseIdx i } t.action)
                side = freezeFlag u side := by
              cases side <;> cases hact : t.action <;>
                simp_all [runTimer, freezeFlag, unfreezeAction]
            rw [e1, e2, e3]
            exact ⟨h1, h2, fun τ hτ => h3 τ (List.mem_of_mem_eraseIdx hτ)⟩
      · exact h

theorem frozenUntil_run {side : Side} {T : Nat} (es : List Event) {u : State}
    (h : FrozenUntil side T u) : FrozenUntil side T (run u es) := by
  induction es generalizing u with
  | nil => exact h
  | cons e es ih => exact ih (frozenUntil_step h e)

/-- C11 as stated fails: the first bullet hits the right paddle at time 1456 and the second
at time 4464; the callback of the first hit runs at time 6464 and clears `rightFreeze`,
3000 time-units before the freeze of the second hit is over. -/
theorem freeze_full_time_false :
    ¬ ∀ (es1 : List Event) (ds : Nat → Draws) (es2 : List Event),
        paddleHitDuring Side.right (run init es1) ds →
        (run (refresh (run init es1) ds) es2).now < (run init es1).now + 5000 →
        (run (refresh (run init es1) ds) es2).rightFreeze = true := by
  intro h
  have h1 := h secondHitAhead (fun _ => drawsHigh) [Event.advance 2000, Event.fire 0]
    ⟨⟨9464, TimerAction.rightUnfreeze⟩, by decide!, rfl⟩ (by decide!)
  exact absurd h1 (by decide!)

/-- C11 amended: if no callback releasing the right paddle is pending when a bullet from
the left hits it at time `t`, then `rightFreeze` is true in every later state of the
execution whose time is below `t + 5000`; the same holds for a bullet from the right, the
left paddle and `leftFreeze`. -/
theorem freeze_lasts_when_fresh (side : Side) (s : State) (ds : Nat → Draws)
    (hfresh : ∀ τ ∈ s.timers, τ.action ≠ unfreezeAction side)
    (hhit : paddleHitDuring side s ds) (es : List Event)
    (hnow : (run (refresh s ds) es).now < s.now + 5000) :
    freezeFlag (run (refresh s ds) es) side = true := by
  obtain ⟨r1, -, extra, r3, r4⟩ := freezeRel_refresh side s ds
  obtain ⟨τ, hτ, ha⟩ := hhit
  rw [r3, List.drop_left] at hτ
  have h0 : FrozenUntil side (s.now + 5000) (refresh s ds) := by
    right
    refine ⟨by rw [r1]; exact Nat.le_refl _, (r4 τ hτ ha).2, ?_⟩
    intro σ hσ hb
    rw [r3, List.mem_append] at hσ
    rcases hσ with hσ | hσ
    · exact absurd hb (hfresh σ hσ)
    · rw [(r4 σ hσ hb).1]
      exact Nat.le_refl _
  rcases frozenUntil_run es h0 with h | ⟨-, h, -⟩
  · omega
  · exact h

/-- Witness of `freeze_lasts_when_fresh`: the first hit on the right paddle, 3000
time-units later. -/
theorem freeze_lasts_when_fresh_witness :
    freezeFlag (run (refresh (run init firstHitAhead) (fun _ => drawsHigh))
      [Event.advance 3000]) Side.right = true :=
  freeze_lasts_when_fresh Side.right (run init firstHitAhead) (fun _ => drawsHigh)
    (by decide!) ⟨⟨5000, TimerAction.rightUnfreeze⟩, by decide!, rfl⟩ [Event.advance 3000]
    (by decide!)

/-! ## The bullet loop -/

theorem get?_append_length {α : Type} (pre : List α) (b : α) (rest : List α) :
    (pre ++ b :: rest).get? pre.length = some b := by
  induction pre with
  | nil => rfl
  | cons a pre ih => simpa using ih

theorem set_append_length {α : Type} (pre : List α) (b c : α) (rest : List α) :
    (pre ++ b :: rest).set pre.length c = pre ++ c :: rest := by
  induction pre with
  | nil => rfl
  | cons a pre ih => simp

theorem eraseIdx_append_length {α : Type} (pre : List α) (b : α) (rest : List α) :
    (pre ++ b :: rest).eraseIdx pre.length = pre ++ rest := by
  induction pre with
  | nil => rfl
  | cons a pre ih => simpa using ih

/-- The body of the bullet loop at the position of the bullet `b`. -/
theorem bulletStep_at (s : State) (pre rest : List Bullet) (b : Bullet)
    (hs : s.bullets = pre ++ b :: rest) :
    bulletStep s pre.length =
      if hitsRightPaddle s.rightY (advanceBullet b) = true then
        { s with
          rightFreeze := true
          timers := s.timers ++ [⟨s.now + freezeTime, TimerAction.rightUnfreeze⟩]
          bullets := pre ++ rest }
      else if hitsLeftPaddle s.leftY (advanceBullet b) = true then
        { s with
          leftFreeze := true
          timers := s.timers ++ [⟨s.now + freezeTime, TimerAction.leftUnfreeze⟩]
          bullets := pre ++ rest }
      else if outsideArena (advanceBullet b) = true then { s with bullets := pre ++ rest }
      else { s with bullets := pre ++ advanceBullet b :: rest } := by
  unfold bulletStep
  rw [hs, get?_append_length]
  simp only [set_append_length, eraseIdx_append_length, hitsRightPaddle, hitsLeftPaddle,
    outsideArena, advanceBullet, decide_eq_true_eq]

/-- The loop over the first `pre.length` bullets, the bullets `rest` behind them being done. -/
theorem bulletLoop_append (pre : List Bullet) :
    ∀ (rest : List Bullet) (s : State), s.bullets = pre ++ rest →
      (bulletLoop pre.length s).bullets =
        (pre.map advanceBullet).filter (survives s.leftY s.rightY) ++ rest ∧
      (bulletLoop pre.length s).rightFreeze =
        (s.rightFreeze || (pre.map advanceBullet).any (hitsRightPaddle s.rightY)) ∧
      (bulletLoop pre.length s).leftFreeze =
        (s.leftFreeze || (pre.map advanceBullet).any (hitsLeftPaddle s.leftY)) := by
  induction pre using List.reverseRecOn with
  | nil =>
    intro rest s hs
    simp [bulletLoop, hs]
  | append_singleton pre b ih =>
    intro rest s hs
    have hs2 : s.bullets = pre ++ b :: rest := by simp [hs]
    have hstep := bulletStep_at s pre rest b hs2
    have hlen : (pre ++ [b]).length = pre.length + 1 := by simp
    rw [hlen]
    simp only [bulletLoop]
    by_cases h1 : hitsRightPaddle s.rightY (advanceBullet b) = true
    · rw [hstep, if_pos h1]
      obtain ⟨a1, a2, a3⟩ := ih rest
        { s with
          rightFreeze := true
          timers := s.timers ++ [⟨s.now + freezeTime, TimerAction.rightUnfreeze⟩]
          bullets := pre ++ rest } rfl
      refine ⟨?_, ?_, ?_⟩
      · rw [a1]; simp [survives, h1]
      · rw [a2]; simp [h1]
      · rw [a3]
        have : hitsLeftPaddle s.leftY (advanceBullet b) = false := by
          simp only [hitsRightPaddle, hitsLeftPaddle, decide_eq_true_eq] at h1 ⊢
          simp [h1.1]
        simp [this]
    · rw [hstep, if_neg h1]
      by_cases h2 : hitsLeftPaddle s.leftY (advanceBullet b) = true
      · rw [if_pos h2]
        obtain ⟨a1, a2, a3⟩ := ih rest
          { s with
            leftFreeze := true
            timers := s.timers ++ [⟨s.now + freezeTime, TimerAction.leftUnfreeze⟩]
            bullets := pre ++ rest } rfl
        refine ⟨?_, ?_, ?_⟩
        · rw [a1]; simp [survives, h2]
        · rw [a2]; simp [h1]
        · rw [a3]; simp [h2]
      · rw [if_neg h2]
        by_cases h3 : outsideArena (advanceBullet b) = true
        · rw [if_pos h3]
          obtain ⟨a1, a2, a3⟩ := ih rest { s with bullets := pre ++ rest } rfl
          refine ⟨?_, ?_, ?_⟩
          · rw [a1]; simp [survives, h3]
          · rw [a2]; simp [h1]
          · rw [a3]; simp [h2]
        · rw [if_neg h3]
          obtain ⟨a1, a2, a3⟩ := ih (advanceBullet b :: rest)
            { s with bullets := pre ++ advanceBullet b :: rest } rfl
          refine ⟨?_, ?_, ?_⟩
          · rw [a1]; simp [survives, h1, h2, h3]
          · rw [a2]; simp [h1]
          · rw [a3]; simp [h2]

theorem ballPhase_bulletView (s : State) :
    (ballPhase s).bullets = s.bullets ∧ (ballPhase s).leftY = s.leftY ∧
      (ballPhase s).rightY = s.rightY := by
  simp only [ballPhase, rightPaddleHit, leftPaddleHit, wallBounce, moveBall]
  split_ifs <;> exact ⟨rfl, rfl, rfl⟩

theorem scoring_bulletView (s : State) (d : Draws) :
    (scoring s d).bullets = s.bullets ∧ (scoring s d).leftY = s.leftY ∧
      (scoring s d).rightY = s.rightY := by
  have a : ∀ (u : State) (r1 r2 : ℚ), (goalRight u r1 r2).bullets = u.bullets ∧
      (goalRight u r1 r2).leftY = u.leftY ∧ (goalRight u r1 r2).rightY = u.rightY := by
    intro u r1 r2
    simp only [goalRight, declareWinner, resetBall]
    split_ifs <;> exact ⟨rfl, rfl, rfl⟩
  have b : ∀ (u : State) (r1 r2 : ℚ), (goalLeft u r1 r2).bullets = u.bullets ∧
      (goalLeft u r1 r2).leftY = u.leftY ∧ (goalLeft u r1 r2).rightY = u.rightY := by
    intro u r1 r2
    simp only [goalLeft, declareWinner, resetBall]
    split_ifs <;> exact ⟨rfl, rfl, rfl⟩
  simp only [scoring]
  exact ⟨(b _ _ _).1.trans (a _ _ _).1, (b _ _ _).2.1.trans (a _ _ _).2.1,
    (b _ _ _).2.2.trans (a _ _ _).2.2⟩

/-- The bullets and the freeze flags after `update`, without the loop. -/
theorem update_bullets (s : State) (d : Draws) :
    (update s d).bullets = bulletsByFilter s ∧
    (update s d).rightFreeze = rightFreezeByFilter s ∧
    (update s d).leftFreeze = leftFreezeByFilter s := by
  have v1 := ballPhase_bulletView s
  have v2 := scoring_bulletView (ballPhase s) d
  have f1 := ballPhase_freezes s
  have f2 := scoring_freezes (ballPhase s) d
  have h := bulletLoop_append (scoring (ballPhase s) d).bullets []
    (scoring (ballPhase s) d) (by simp)
  simp only [List.append_nil] at h
  simp only [update, bulletsByFilter, rightFreezeByFilter, leftFreezeByFilter]
  rw [h.1, h.2.1, h.2.2, v2.1, v2.2.1, v2.2.2, v1.1, v1.2.1, v1.2.2, f2.1, f2.2, f1.1, f1.2]
  exact ⟨rfl, rfl, rfl⟩

/-! ## C12: the bullet hit test -/

theorem get?_split {α : Type} (l : List α) (i : Nat) (b : α) (h : l.get? i = some b) :
    ∃ pre rest, l = pre ++ b :: rest ∧ pre.length = i := by
  induction l generalizing i with
  | nil => simp at h
  | cons a l ih =>
    cases i with
    | zero =>
      simp only [List.get?_cons_zero, Option.some.injEq] at h
      exact ⟨[], l, by simp [h], rfl⟩
    | succ i =>
      simp only [List.get?_cons_succ] at h
      obtain ⟨pre, rest, e1, e2⟩ := ih i h
      exact ⟨a :: pre, rest, by simp [e1], by simp [e2]⟩

/-- C12 as stated fails: the bullet of `pastFaceState` advances to `x = 776`, more than 5
units past the paddle face 768, and still freezes the right paddle. -/
theorem hit_test_two_sided_false :
    ¬ ∀ (s : State) (i : Nat) (b : Bullet), s.bullets.get? i = some b →
        b.origin = Side.left →
        (FreezesRight s i ↔
          (763 ≤ b.x + b.vx ∧ b.x + b.vx ≤ 773 ∧ s.rightY < b.y ∧ b.y < s.rightY + 80)) := by
  intro h
  have h1 := h pastFaceState 0 ⟨768, 250, 8, Side.left⟩ (by decide!) rfl
  have h2 : FreezesRight pastFaceState 0 := by
    unfold FreezesRight
    decide!
  exact absurd (h1.mp h2).2.1 (by decide)

/-- C12 amended: in the bullet loop a bullet from the left sets `rightFreeze` and is removed
if and only if, after advancing by its `vx`, its `x` is at least 763 (`x + 5 >= 768`, with
no upper bound) and `rightY < y < rightY + 80`; a bullet from the right sets `leftFreeze`
and is removed if and only if its advanced `x` is at most 37 (`x - 5 <= 32`, with no lower
bound) and `leftY < y < leftY + 80`; a bullet never freezes the paddle of its own side. -/
theorem bullet_hit_test (s : State) (i : Nat) (b : Bullet)
    (hb : s.bullets.get? i = some b) :
    (b.origin = Side.left →
      ((FreezesRight s i ↔ (763 ≤ b.x + b.vx ∧ s.rightY < b.y ∧ b.y < s.rightY + 80)) ∧
        (bulletStep s i).leftFreeze = s.leftFreeze)) ∧
    (b.origin = Side.right →
      ((FreezesLeft s i ↔ (b.x + b.vx ≤ 37 ∧ s.leftY < b.y ∧ b.y < s.leftY + 80)) ∧
        (bulletStep s i).rightFreeze = s.rightFreeze)) := by
  obtain ⟨pre, rest, e1, e2⟩ := get?_split s.bullets i b hb
  have hstep := bulletStep_at s pre rest b e1
  have herase : s.bullets.eraseIdx i = pre ++ rest := by
    rw [e1, ← e2, eraseIdx_append_length]
  rw [e2] at hstep
  have hne : ∀ (l : List Timer) (t : Timer), l ≠ l ++ [t] := by
    intro l t h
    have := congrArg List.length h
    simp at this
  constructor
  · intro ho
    have hL : hitsLeftPaddle s.leftY (advanceBullet b) = false := by
      simp [hitsLeftPaddle, advanceBullet, ho]
    by_cases hc : 763 ≤ b.x + b.vx ∧ s.rightY < b.y ∧ b.y < s.rightY + 80
    · have hR : hitsRightPaddle s.rightY (advanceBullet b) = true := by
        simp only [hitsRightPaddle, advanceBullet, canvasWidth, paddleWidth, paddleHeight,
          decide_eq_true_eq]
        exact ⟨ho, by omega, by omega, by omega⟩
      rw [if_pos hR] at hstep
      refine ⟨⟨fun _ => hc, fun _ => ?_⟩, ?_⟩
      · simp [FreezesRight, hstep, herase]
      · rw [hstep]
    · have hR : ¬ hitsRightPaddle s.rightY (advanceBullet b) = true := by
        simp only [hitsRightPaddle, advanceBullet, canvasWidth, paddleWidth, paddleHeight,
          decide_eq_true_eq]
        intro h
        exact hc ⟨by omega, by omega, by omega⟩
      rw [if_neg hR, hL] at hstep
      simp only [Bool.false_eq_true, if_false] at hstep
      have ht : (bulletStep s i).timers = s.timers ∧
          (bulletStep s i).leftFreeze = s.leftFreeze := by
        rw [hstep]
        split_ifs <;> exact ⟨rfl, rfl⟩
      refine ⟨⟨fun hf => ?_, fun h => absurd h hc⟩, ht.2⟩
      have := hf.2.1
      rw [ht.1] at this
      exact absurd this (hne _ _)
  · intro ho
    have hR : hitsRightPaddle s.rightY (advanceBullet b) = false := by
      simp [hitsRightPaddle, advanceBullet, ho]
    rw [hR] at hstep
    simp only [Bool.false_eq_true, if_false] at hstep
    by_cases hc : b.x + b.vx ≤ 37 ∧ s.leftY < b.y ∧ b.y < s.leftY + 80
    · have hL : hitsLeftPaddle s.leftY (advanceBullet b) = true := by
        simp only [hitsLeftPaddle, advanceBullet, paddleWidth, paddleHeight,
          decide_eq_true_eq]
        exact ⟨ho, by omega, by omega, by omega⟩
      rw [if_pos hL] at hstep
      refine ⟨⟨fun _ => hc, fun _ => ?_⟩, ?_⟩
      · simp [FreezesLeft, hstep, herase]
      · rw [hstep]
    · have hL : ¬ hitsLeftPaddle s.leftY (advanceBullet b) = true := by
        simp only [hitsLeftPaddle, advanceBullet, paddleWidth, paddleHeight,
          decide_eq_true_eq]
        intro h
        exact hc ⟨by omega, by omega, by omega⟩
      rw [if_neg hL] at hstep
      have ht : (bulletStep s i).timers = s.timers ∧
          (bulletStep s i).rightFreeze = s.rightFreeze := by
        rw [hstep]
        split_ifs <;> exact ⟨rfl, rfl⟩
      refine ⟨⟨fun hf => ?_, fun h => absurd h hc⟩, ht.2⟩
      have := hf.2.1
      rw [ht.1] at this
      exact absurd this (hne _ _)

/-- Witness of `bullet_hit_test`: the bullet of `pastFaceState`, which advances to
`x = 776`. -/
theorem bullet_hit_test_witness :
    FreezesRight pastFaceState 0 ∧ (bulletStep pastFaceState 0).leftFreeze = false :=
  ⟨((bullet_hit_test pastFaceState 0 ⟨768, 250, 8, Side.left⟩ (by decide!)).1 rfl).1.mpr
      ⟨by decide, by decide!, by decide!⟩,
    ((bullet_hit_test pastFaceState 0 ⟨768, 250, 8, Side.left⟩ (by decide!)).1 rfl).2.trans
      (by decide!)⟩

/-! ## C13: bullets outside the arena -/

theorem update_bullets_inside (s : State) (d : Draws) :
    ∀ b ∈ (update s d).bullets, 0 ≤ b.x ∧ b.x ≤ 800 := by
  intro b hb
  rw [(update_bullets s d).1, bulletsByFilter, List.mem_filter] at hb
  have h := hb.2
  simp only [survives, outsideArena, canvasWidth, Bool.and_eq_true, Bool.not_eq_true',
    decide_eq_false_iff_not] at h
  omega

theorem shootBullet_bullets (s : State) (c : Bool) :
    (shootBullet s c).bullets = s.bullets ∨
    (shootBullet s c).bullets = s.bullets ++ [⟨32, s.leftY + 40, 8, Side.left⟩] ∨
    (shootBullet s c).bullets = s.bullets ++ [⟨768, s.rightY + 40, -8, Side.right⟩] := by
  cases c
  · by_cases hr : s.rightGunReady = true
    · right; right
      simp [shootBullet, hr, paddleWidth, paddleHeight, bulletSpeed, canvasWidth]
    · left
      simp [shootBullet, hr]
  · by_cases hr : s.leftGunReady = true
    · right; left
      simp [shootBullet, hr, paddleWidth, paddleHeight, bulletSpeed]
    · left
      simp [shootBullet, hr]

theorem shootBullet_bullets_inside (s : State) (c : Bool)
    (h : ∀ b ∈ s.bullets, 0 ≤ b.x ∧ b.x ≤ 800) :
    ∀ b ∈ (shootBullet s c).bullets, 0 ≤ b.x ∧ b.x ≤ 800 := by
  intro b hb
  rcases shootBullet_bullets s c with e | e | e <;> rw [e] at hb
  · exact h b hb
  · rw [List.mem_append, List.mem_singleton] at hb
    rcases hb with hb | hb
    · exact h b hb
    · subst hb
      exact ⟨by simp, by simp⟩
  · rw [List.mem_append, List.mem_singleton] at hb
    rcases hb with hb | hb
    · exact h b hb
    · subst hb
      exact ⟨by simp, by simp⟩

theorem gameLoop_bullets_inside (s : State) (d : Draws)
    (h : ∀ b ∈ s.bullets, 0 ≤ b.x ∧ b.x ≤ 800) :
    ∀ b ∈ (gameLoop s d).bullets, 0 ≤ b.x ∧ b.x ≤ 800 := by
  simp only [gameLoop]
  split_ifs
  · exact h
  · exact update_bullets_inside _ d

theorem step_bullets_inside (s : State) (e : Event)
    (h : ∀ b ∈ s.bullets, 0 ≤ b.x ∧ b.x ≤ 800) :
    ∀ b ∈ (step s e).bullets, 0 ≤ b.x ∧ b.x ≤ 800 := by
  cases e with
  | start => simp only [step, start]; split_ifs <;> exact h
  | pause => exact h
  | reset r1 r2 => exact h
  | toggleMode r1 r2 => exact h
  | keyDown k => exact h
  | keyUp k => exact h
  | advance dt => exact h
  | refresh ds =>
    have hfold : ∀ (l : List Nat) (u : State), (∀ b ∈ u.bullets, 0 ≤ b.x ∧ b.x ≤ 800) →
        ∀ b ∈ (l.foldl (fun t i => gameLoop t (ds i)) u).bullets, 0 ≤ b.x ∧ b.x ≤ 800 := by
      intro l
      induction l with
      | nil => intro u hu; exact hu
      | cons a l ih => intro u hu; exact ih _ (gameLoop_bullets_inside u (ds a) hu)
    exact hfold _ _ h
  | fire i =>
    simp only [step, fireTimer]
    split
    · exact h
    · split_ifs
      · rename_i t _ _
        cases t.action <;> exact h
      · exact h

/-- C13: after one call of `update`, whatever the state, every bullet left in the list has
`0 <= x <= 800`; and in every state reached from the initial state all stored bullets have
`0 <= x <= 800`. -/
theorem bullets_inside_arena :
    (∀ (s : State) (d : Draws), ∀ b ∈ (update s d).bullets, 0 ≤ b.x ∧ b.x ≤ 800) ∧
    (∀ es : List Event, ∀ b ∈ (run init es).bullets, 0 ≤ b.x ∧ b.x ≤ 800) := by
  refine ⟨update_bullets_inside, ?_⟩
  have hrun : ∀ (es : List Event) (u : State), (∀ b ∈ u.bullets, 0 ≤ b.x ∧ b.x ≤ 800) →
      ∀ b ∈ (run u es).bullets, 0 ≤ b.x ∧ b.x ≤ 800 := by
    intro es
    induction es with
    | nil => intro u hu; exact hu
    | cons e es ih => intro u hu; exact ih _ (step_bullets_inside u e hu)
  intro es
  exact hrun es init (by simp [init])

/-- Witness of `bullets_inside_arena`: the bullet in flight at the end of `firstHitAhead`,
before and after one more `update`. -/
theorem bullets_inside_arena_witness :
    (0 ≤ (⟨768, 250, 8, Side.left⟩ : Bullet).x ∧ (⟨768, 250, 8, Side.left⟩ : Bullet).x ≤ 800) ∧
    (0 ≤ (⟨760, 250, 8, Side.left⟩ : Bullet).x ∧ (⟨760, 250, 8, Side.left⟩ : Bullet).x ≤ 800) :=
  ⟨bullets_inside_arena.1 { run init firstHitAhead with rightY := 0 } drawsHigh
      ⟨768, 250, 8, Side.left⟩ (by decide!),
    bullets_inside_arena.2 firstHitAhead ⟨760, 250, 8, Side.left⟩ (by decide!)⟩

/-! ## C15: the bullet loop as a map and a filter -/

/-- C15: the reverse-index loop with `splice` computes a map followed by a filter: after
`update` (and after the loop alone) the bullet list is the list of advanced bullets, each
advanced once by its own `vx`, from which those that hit the opposing paddle or left
`[0,800]` are dropped, in the original order; `rightFreeze` is true if some advanced bullet
from the left hit the right paddle and unchanged otherwise, and likewise `leftFreeze`. -/
theorem bullet_loop_is_map_filter (s : State) (d : Draws) :
    (bulletLoop s.bullets.length s).bullets =
      (s.bullets.map advanceBullet).filter (survives s.leftY s.rightY) ∧
    (bulletLoop s.bullets.length s).rightFreeze =
      (s.rightFreeze || (s.bullets.map advanceBullet).any (hitsRightPaddle s.rightY)) ∧
    (bulletLoop s.bullets.length s).leftFreeze =
      (s.leftFreeze || (s.bullets.map advanceBullet).any (hitsLeftPaddle s.leftY)) ∧
    (update s d).bullets = bulletsByFilter s ∧
    (update s d).rightFreeze = rightFreezeByFilter s ∧
    (update s d).leftFreeze = leftFreezeByFilter s ∧
    List.Sublist (update s d).bullets (s.bullets.map advanceBullet) := by
  have h := bulletLoop_append s.bullets [] s (by simp)
  simp only [List.append_nil] at h
  have hu := update_bullets s d
  refine ⟨h.1, h.2.1, h.2.2, hu.1, hu.2.1, hu.2.2, ?_⟩
  rw [hu.1, bulletsByFilter]
  exact List.filter_sublist _

/-! ## C14: reset and mode toggle -/

/-- C14: `resetGame` zeroes both scores, empties the winner message, puts both paddles at
210, stops the game and serves the ball from (400,250) with speed components 6 or -6; the
mode, the bullets, both gun flags and both freeze flags keep their values.  `toggleMode`
has the same effect, with `modeAI` flipped. -/
theorem resetGame_spec (s : State) (r1 r2 : ℚ) :
    (resetGame s r1 r2).leftScore = 0 ∧ (resetGame s r1 r2).rightScore = 0 ∧
    (resetGame s r1 r2).winnerMsg = "" ∧ (resetGame s r1 r2).leftY = 210 ∧
    (resetGame s r1 r2).rightY = 210 ∧ (resetGame s r1 r2).running = false ∧
    (resetGame s r1 r2).ballX = 400 ∧ (resetGame s r1 r2).ballY = 250 ∧
    ((resetGame s r1 r2).ballSpeedX = 6 ∨ (resetGame s r1 r2).ballSpeedX = -6) ∧
    ((resetGame s r1 r2).ballSpeedY = 6 ∨ (resetGame s r1 r2).ballSpeedY = -6) ∧
    (resetGame s r1 r2).modeAI = s.modeAI ∧ (resetGame s r1 r2).bullets = s.bullets ∧
    (resetGame s r1 r2).leftGunReady = s.leftGunReady ∧
    (resetGame s r1 r2).rightGunReady = s.rightGunReady ∧
    (resetGame s r1 r2).leftFreeze = s.leftFreeze ∧
    (resetGame s r1 r2).rightFreeze = s.rightFreeze ∧
    toggleMode s r1 r2 = { resetGame s r1 r2 with modeAI := !s.modeAI } := by
  refine ⟨rfl, rfl, rfl, by simp [resetGame, resetBall, canvasHeight, paddleHeight],
    by simp [resetGame, resetBall, canvasHeight, paddleHeight], rfl,
    by simp [resetGame, resetBall, canvasWidth], by simp [resetGame, resetBall, canvasHeight],
    ?_, ?_, rfl, rfl, rfl, rfl, rfl, rfl, rfl⟩
  · simp only [resetGame, resetBall]; split_ifs <;> simp
  · simp only [resetGame, resetBall]; split_ifs <;> simp

/-! ## Invariants of the paddles and the ball -/

theorem handleInput_ball (s : State) (r : ℚ) :
    (handleInput s r).ballX = s.ballX ∧ (handleInput s r).ballY = s.ballY ∧
    (handleInput s r).ballSpeedX = s.ballSpeedX ∧
    (handleInput s r).ballSpeedY = s.ballSpeedY ∧ (handleInput s r).modeAI = s.modeAI := by
  have a : ∀ u : State, (moveLeftPaddle u).ballX = u.ballX ∧
      (moveLeftPaddle u).ballY = u.ballY ∧ (moveLeftPaddle u).ballSpeedX = u.ballSpeedX ∧
      (moveLeftPaddle u).ballSpeedY = u.ballSpeedY ∧ (moveLeftPaddle u).modeAI = u.modeAI := by
    intro u
    simp only [moveLeftPaddle]
    split_ifs <;> exact ⟨rfl, rfl, rfl, rfl, rfl⟩
  have b : ∀ u : State, (moveRightPaddle u r).ballX = u.ballX ∧
      (moveRightPaddle u r).ballY = u.ballY ∧
      (moveRightPaddle u r).ballSpeedX = u.ballSpeedX ∧
      (moveRightPaddle u r).ballSpeedY = u.ballSpeedY ∧
      (moveRightPaddle u r).modeAI = u.modeAI := by
    intro u
    simp only [moveRightPaddle]
    split_ifs <;> exact ⟨rfl, rfl, rfl, rfl, rfl⟩
  have c : ∀ (u : State) (k : Bool), (shootBullet u k).ballX = u.ballX ∧
      (shootBullet u k).ballY = u.ballY ∧ (shootBullet u k).ballSpeedX = u.ballSpeedX ∧
      (shootBullet u k).ballSpeedY = u.ballSpeedY ∧ (shootBullet u k).modeAI = u.modeAI := by
    intro u k
    simp only [shootBullet]
    split_ifs <;> exact ⟨rfl, rfl, rfl, rfl, rfl⟩
  have e : ∀ u : State, (shootingChecks u).ballX = u.ballX ∧
      (shootingChecks u).ballY = u.ballY ∧ (shootingChecks u).ballSpeedX = u.ballSpeedX ∧
      (shootingChecks u).ballSpeedY = u.ballSpeedY ∧ (shootingChecks u).modeAI = u.modeAI := by
    intro u
    simp only [shootingChecks]
    split_ifs <;> simp [c]
  obtain ⟨a1, a2, a3, a4, a5⟩ := a s
  obtain ⟨b1, b2, b3, b4, b5⟩ := b (moveLeftPaddle s)
  obtain ⟨e1, e2, e3, e4, e5⟩ := e (moveRightPaddle (moveLeftPaddle s) r)
  simp only [handleInput]
  exact ⟨e1.trans (b1.trans a1), e2.trans (b2.trans a2), e3.trans (b3.trans a3),
    e4.trans (b4.trans a4), e5.trans (b5.trans a5)⟩

/-- A property of the paddles, the ball and the mode that holds initially and is kept by
`handleInput`, `update`, `resetGame` and `toggleMode` holds in every state of every
execution. -/
theorem invariant_of_run (I : State → Prop)
    (hframe : ∀ s t : State, PlayFrame s t → I s → I t)
    (hinput : ∀ (s : State) (r : ℚ), I s → I (handleInput s r))
    (hupdate : ∀ (s : State) (d : Draws), I s → I (update s d))
    (hreset : ∀ (s : State) (r1 r2 : ℚ), I s → I (resetGame s r1 r2))
    (htoggle : ∀ (s : State) (r1 r2 : ℚ), I s → I (toggleMode s r1 r2))
    (h0 : I init) (es : List Event) : I (run init es) := by
  have same : ∀ s t : State, I s → t.modeAI = s.modeAI → t.leftY = s.leftY →
      t.rightY = s.rightY → t.ballX = s.ballX → t.ballY = s.ballY →
      t.ballSpeedX = s.ballSpeedX → t.ballSpeedY = s.ballSpeedY → I t :=
    fun s t h a b c d e f g => hframe s t ⟨a, b, c, d, e, f, g⟩ h
  have hloop : ∀ (s : State) (d : Draws), I s → I (gameLoop s d) := by
    intro s d h
    simp only [gameLoop]
    split_ifs
    · exact h
    · exact same _ _ (hupdate _ d (hinput s d.ai h)) rfl rfl rfl rfl rfl rfl rfl
  have hstep : ∀ (s : State) (e : Event), I s → I (step s e) := by
    intro s e h
    cases e with
    | start =>
      simp only [step, start]
      split_ifs
      · exact same _ _ h rfl rfl rfl rfl rfl rfl rfl
      · exact h
    | pause => exact same _ _ h rfl rfl rfl rfl rfl rfl rfl
    | reset r1 r2 => exact hreset s r1 r2 h
    | toggleMode r1 r2 => exact htoggle s r1 r2 h
    | keyDown k => exact same _ _ h rfl rfl rfl rfl rfl rfl rfl
    | keyUp k => exact same _ _ h rfl rfl rfl rfl rfl rfl rfl
    | advance dt => exact same _ _ h rfl rfl rfl rfl rfl rfl rfl
    | refresh ds =>
      have hfold : ∀ (l : List Nat) (u : State), I u →
          I (l.foldl (fun t i => gameLoop t (ds i)) u) := by
        intro l
        induction l with
        | nil => intro u hu; exact hu
        | cons a l ih => intro u hu; exact ih _ (hloop u (ds a) hu)
      exact hfold _ _ (same _ _ h rfl rfl rfl rfl rfl rfl rfl)
    | fire i =>
      simp only [step, fireTimer]
      split
      · exact h
      · split_ifs
        · rename_i t _ _
          cases t.action <;> exact same _ _ h rfl rfl rfl rfl rfl rfl rfl
        · exact h
  have hrun : ∀ (l : List Event) (u : State), I u → I (run u l) := by
    intro l
    induction l with
    | nil => intro u hu; exact hu
    | cons e l ih => intro u hu; exact ih _ (hstep u e hu)
  exact hrun es init h0

/-! ## C16: the ball and the walls -/

theorem wallInv_scoring (s : State) (d : Draws) (h : WallInv s) : WallInv (scoring s d) := by
  have fresh : ∀ (u : State) (r1 r2 : ℚ), WallInv (resetBall u r1 r2) := by
    intro u r1 r2
    simp only [WallInv, resetBall, canvasHeight]
    split_ifs <;> simp
  have a : ∀ (u : State) (r1 r2 : ℚ), WallInv u → WallInv (goalRight u r1 r2) := by
    intro u r1 r2 hu
    simp only [goalRight]
    split_ifs
    · exact hu
    · exact fresh _ _ _
    · exact hu
  have b : ∀ (u : State) (r1 r2 : ℚ), WallInv u → WallInv (goalLeft u r1 r2) := by
    intro u r1 r2 hu
    simp only [goalLeft]
    split_ifs
    · exact hu
    · exact fresh _ _ _
    · exact hu
  exact b _ _ _ (a _ _ _ h)

theorem wallInv_update (s : State) (d : Draws) (h : WallInv s) : WallInv (update s d) := by
  have h0 : WallInv (wallBounce (moveBall s)) := by
    obtain ⟨a1, a2, a3, a4, a5, a6⟩ := h
    simp only [WallInv, wallBounce, moveBall, ballRadius, canvasHeight]
    split_ifs <;> simp only [] <;> omega
  have hl : ∀ u : State, WallInv u → WallInv (leftPaddleHit u) := by
    intro u hu
    simp only [leftPaddleHit]
    split_ifs <;> exact hu
  have hr : ∀ u : State, WallInv u → WallInv (rightPaddleHit u) := by
    intro u hu
    simp only [rightPaddleHit]
    split_ifs <;> exact hu
  have h1 : WallInv (ballPhase s) := hr _ (hl _ h0)
  have h2 := wallInv_scoring (ballPhase s) d h1
  obtain ⟨-, -, -, -, -, -, -, f8, -, f10, -⟩ := update_frame s d
  simpa only [WallInv, f8, f10] using h2

theorem wallInv_run (es : List Event) : WallInv (run init es) := by
  refine invariant_of_run WallInv ?_ ?_ wallInv_update ?_ ?_ ?_ es
  · rintro s t ⟨-, -, -, -, e5, -, e7⟩ h
    simpa only [WallInv, e5, e7] using h
  · intro s r h
    obtain ⟨-, e2, -, e4, -⟩ := handleInput_ball s r
    simpa only [WallInv, e2, e4] using h
  · intro s r1 r2 _
    simp only [WallInv, resetGame, resetBall, canvasHeight]
    split_ifs <;> simp
  · intro s r1 r2 _
    simp only [WallInv, toggleMode, resetGame, resetBall, canvasHeight]
    split_ifs <;> simp
  · simp [WallInv, init, canvasHeight]

/-- C16: in every state of every execution from the initial state `ballSpeedY` is 6 or -6,
the ball overlaps a wall by at most its speed (`ballY - 10 >= -6` and `ballY + 10 <= 506`,
so `4 <= ballY <= 496`), and a ball that overlaps a wall moves away from it, so that it is
inside again after the next tick. -/
theorem ball_stays_between_walls (es : List Event) :
    ((run init es).ballSpeedY = 6 ∨ (run init es).ballSpeedY = -6) ∧
    (run init es).ballY - 10 ≥ -6 ∧ (run init es).ballY + 10 ≤ 506 ∧
    4 ≤ (run init es).ballY ∧ (run init es).ballY ≤ 496 ∧
    ((run init es).ballY + 10 ≤ 500 ∨ (run init es).ballSpeedY = -6) ∧
    (0 ≤ (run init es).ballY - 10 ∨ (run init es).ballSpeedY = 6) := by
  obtain ⟨a1, a2, a3, a4, a5, a6⟩ := wallInv_run es
  refine ⟨a1, by omega, by omega, a2, a3, ?_, ?_⟩
  · by_cases h : (run init es).ballY = 496
    · exact Or.inr (a5 h)
    · left; omega
  · by_cases h : (run init es).ballY = 4
    · exact Or.inr (a6 h)
    · left; omega

/-! ## C17: the key-driven paddles -/

theorem update_paddles (s : State) (d : Draws) :
    (update s d).leftY = s.leftY ∧ (update s d).rightY = s.rightY ∧
      (update s d).modeAI = s.modeAI := by
  obtain ⟨-, -, -, f4, f5, f6, -⟩ := update_frame s d
  have v1 := ballPhase_bulletView s
  have v2 := scoring_bulletView (ballPhase s) d
  have m1 : (ballPhase s).modeAI = s.modeAI := by
    simp only [ballPhase, rightPaddleHit, leftPaddleHit, wallBounce, moveBall]
    split_ifs <;> rfl
  have m2 : ∀ (u : State) (r1 r2 : ℚ), (goalRight u r1 r2).modeAI = u.modeAI := by
    intro u r1 r2
    simp only [goalRight, declareWinner, resetBall]
    split_ifs <;> rfl
  have m3 : ∀ (u : State) (r1 r2 : ℚ), (goalLeft u r1 r2).modeAI = u.modeAI := by
    intro u r1 r2
    simp only [goalLeft, declareWinner, resetBall]
    split_ifs <;> rfl
  have m4 : (scoring (ballPhase s) d).modeAI = s.modeAI := by
    simp only [scoring]
    rw [m3, m2, m1]
  exact ⟨f5.trans (v2.2.1.trans v1.2.1), f6.trans (v2.2.2.trans v1.2.2), f4.trans m4⟩

theorem paddleInv_moveLeftPaddle (s : State) (h : PaddleInv s) :
    PaddleInv (moveLeftPaddle s) := by
  obtain ⟨a1, a2, a3, a4⟩ := h
  have hl : (moveLeftPaddle s).leftY % 10 = 0 ∧ 0 ≤ (moveLeftPaddle s).leftY ∧
      (moveLeftPaddle s).leftY ≤ 420 := by
    simp only [moveLeftPaddle, paddleSpeed, canvasHeight, paddleHeight]
    split_ifs <;> (try dsimp only) <;> omega
  have hr : (moveLeftPaddle s).rightY = s.rightY ∧ (moveLeftPaddle s).modeAI = s.modeAI := by
    simp only [moveLeftPaddle]
    split_ifs <;> exact ⟨rfl, rfl⟩
  refine ⟨hl.1, hl.2.1, hl.2.2, ?_⟩
  rw [hr.1, hr.2]
  exact a4

theorem paddleInv_moveRightPaddle (s : State) (r : ℚ) (h : PaddleInv s) :
    PaddleInv (moveRightPaddle s r) := by
  obtain ⟨a1, a2, a3, a4⟩ := h
  have hl : (moveRightPaddle s r).leftY = s.leftY ∧
      (moveRightPaddle s r).modeAI = s.modeAI := by
    simp only [moveRightPaddle]
    split_ifs <;> exact ⟨rfl, rfl⟩
  refine ⟨by rw [hl.1]; exact a1, by rw [hl.1]; exact a2, by rw [hl.1]; exact a3, ?_⟩
  rw [hl.2]
  intro hm
  obtain ⟨b1, b2, b3⟩ := a4 hm
  have hne : ¬ (s.modeAI = true) := by simp [hm]
  simp only [moveRightPaddle, if_neg hne, paddleSpeed, canvasHeight, paddleHeight]
  split_ifs <;> (try dsimp only) <;> omega

theorem paddleInv_handleInput (s : State) (r : ℚ) (h : PaddleInv s) :
    PaddleInv (handleInput s r) := by
  have h2 := paddleInv_moveRightPaddle (moveLeftPaddle s) r (paddleInv_moveLeftPaddle s h)
  have p := shootingChecks_paddles (moveRightPaddle (moveLeftPaddle s) r)
  have m : ∀ u : State, (shootingChecks u).modeAI = u.modeAI := by
    intro u
    have c : ∀ (v : State) (k : Bool), (shootBullet v k).modeAI = v.modeAI := by
      intro v k
      simp only [shootBullet]
      split_ifs <;> rfl
    simp only [shootingChecks]
    split_ifs <;> simp [c]
  simpa only [PaddleInv, handleInput, p.1, p.2, m] using h2

theorem paddleInv_run (es : List Event) : PaddleInv (run init es) := by
  refine invariant_of_run PaddleInv ?_ paddleInv_handleInput ?_ ?_ ?_ ?_ es
  · rintro s t ⟨e1, e2, e3, -, -, -, -⟩ h
    simpa only [PaddleInv, e1, e2, e3] using h
  · intro s d h
    obtain ⟨e1, e2, e3⟩ := update_paddles s d
    simpa only [PaddleInv, e1, e2, e3] using h
  · intro s r1 r2 _
    simp [PaddleInv, resetGame, resetBall, canvasHeight, paddleHeight]
  · intro s r1 r2 _
    simp [PaddleInv, toggleMode, resetGame, resetBall, canvasHeight, paddleHeight]
  · simp [PaddleInv, init, canvasHeight, paddleHeight]

/-- C17: in every state of every execution from the initial state, whatever keys are held
and however mode toggles and resets are interleaved, `leftY` is a multiple of 10 between 0
and 420, and so is `rightY` whenever `modeAI` is false. -/
theorem key_paddles_stay_in_arena (es : List Event) :
    (run init es).leftY % 10 = 0 ∧ 0 ≤ (run init es).leftY ∧ (run init es).leftY ≤ 420 ∧
    ((run init es).modeAI = false →
      (run init es).rightY % 10 = 0 ∧ 0 ≤ (run init es).rightY ∧
        (run init es).rightY ≤ 420) :=
  paddleInv_run es

/-- Witness of `key_paddles_stay_in_arena`: the right player holds the down key in a 1v1
game. -/
theorem key_paddles_stay_in_arena_witness :
    (run init rightHitAhead).rightY % 10 = 0 ∧ 0 ≤ (run init rightHitAhead).rightY ∧
      (run init rightHitAhead).rightY ≤ 420 :=
  (key_paddles_stay_in_arena rightHitAhead).2.2.2 (by decide!)

/-! ## C18: the ball and the paddles -/

theorem ballXInv_ballPhase (s : State) (h : BallXInv s) : BallXInv (ballPhase s) := by
  have h0 : BallXInv (wallBounce (moveBall s)) := by
    obtain ⟨a1, a2, a3⟩ := h
    have hm : BallXInv (moveBall s) := by
      simp only [BallXInv, moveBall]
      refine ⟨a1, fun hx => ?_, fun hx => ?_⟩
      · rcases a1 with a | a
        · have := a2 (by omega)
          omega
        · exact a
      · rcases a1 with a | a
        · exact a
        · have := a3 (by omega)
          omega
    simp only [wallBounce]
    split_ifs
    · exact hm
    · exact hm
  have hl : ∀ u : State, BallXInv u → BallXInv (leftPaddleHit u) := by
    intro u ⟨a1, a2, a3⟩
    simp only [leftPaddleHit, ballRadius, paddleWidth]
    split_ifs with hc
    · have := a2 (by omega)
      simp only [BallXInv]
      refine ⟨by omega, fun hx => by omega, fun hx => by omega⟩
    · exact ⟨a1, a2, a3⟩
  have hr : ∀ u : State, BallXInv u → BallXInv (rightPaddleHit u) := by
    intro u ⟨a1, a2, a3⟩
    simp only [rightPaddleHit, ballRadius, paddleWidth, canvasWidth]
    split_ifs with hc
    · have := a3 (by omega)
      simp only [BallXInv]
      refine ⟨by omega, fun hx => by omega, fun hx => by omega⟩
    · exact ⟨a1, a2, a3⟩
  exact hr _ (hl _ h0)

theorem ballXInv_scoring (s : State) (d : Draws) (h : BallXInv s) :
    BallXInv (scoring s d) := by
  have fresh : ∀ (u : State) (r1 r2 : ℚ), BallXInv (resetBall u r1 r2) := by
    intro u r1 r2
    simp only [BallXInv, resetBall, canvasWidth]
    split_ifs <;> simp
  have a : ∀ (u : State) (r1 r2 : ℚ), BallXInv u → BallXInv (goalRight u r1 r2) := by
    intro u r1 r2 hu
    simp only [goalRight]
    split_ifs
    · exact hu
    · exact fresh _ _ _
    · exact hu
  have b : ∀ (u : State) (r1 r2 : ℚ), BallXInv u → BallXInv (goalLeft u r1 r2) := by
    intro u r1 r2 hu
    simp only [goalLeft]
    split_ifs
    · exact hu
    · exact fresh _ _ _
    · exact hu
  exact b _ _ _ (a _ _ _ h)

theorem ballXInv_update (s : State) (d : Draws) (h : BallXInv s) : BallXInv (update s d) := by
  have h2 := ballXInv_scoring (ballPhase s) d (ballXInv_ballPhase s h)
  obtain ⟨-, -, -, -, -, -, f7, -, f9, -⟩ := update_frame s d
  simpa only [BallXInv, f7, f9] using h2

theorem ballXInv_handleInput (s : State) (r : ℚ) (h : BallXInv s) :
    BallXInv (handleInput s r) := by
  obtain ⟨e1, -, e3, -, -⟩ := handleInput_ball s r
  simpa only [BallXInv, e1, e3] using h

theorem ballXInv_run (es : List Event) : BallXInv (run init es) := by
  refine invariant_of_run BallXInv ?_ ballXInv_handleInput ballXInv_update ?_ ?_ ?_ es
  · rintro s t ⟨-, -, -, e4, -, e6, -⟩ h
    simpa only [BallXInv, e4, e6] using h
  · intro s r1 r2 _
    simp only [BallXInv, resetGame, resetBall, canvasWidth]
    split_ifs <;> simp
  · intro s r1 r2 _
    simp only [BallXInv, toggleMode, resetGame, resetBall, canvasWidth]
    split_ifs <;> simp
  · simp [BallXInv, init, canvasWidth]

theorem wallBounce_moveBall_x (s : State) :
    (wallBounce (moveBall s)).ballX = s.ballX + s.ballSpeedX ∧
      (wallBounce (moveBall s)).ballSpeedX = s.ballSpeedX := by
  simp only [wallBounce, moveBall]
  split_ifs <;> exact ⟨rfl, rfl⟩

/-- The ball after a tick in which the test of the left paddle succeeds. -/
theorem update_of_leftCollision (s : State) (d : Draws) (h : leftCollision s) :
    (update s d).ballX = 42 ∧ (update s d).ballSpeedX = -s.ballSpeedX := by
  obtain ⟨-, -, -, -, -, -, f7, -, f9, -⟩ := update_frame s d
  have hv := wallBounce_moveBall_x s
  have e1 : leftPaddleHit (wallBounce (moveBall s)) =
      { wallBounce (moveBall s) with
        ballSpeedX := (wallBounce (moveBall s)).ballSpeedX * -1
        ballX := 20 + paddleWidth + ballRadius } := by
    simp only [leftPaddleHit]
    exact if_pos h
  have e2 : ∀ u : State, u.ballX = 42 → rightPaddleHit u = u := by
    intro u hu
    simp only [rightPaddleHit]
    apply if_neg
    intro hc
    have := hc.1
    simp only [hu, ballRadius, canvasWidth, paddleWidth] at this
    omega
  have hb : (ballPhase s).ballX = 42 ∧ (ballPhase s).ballSpeedX = -s.ballSpeedX := by
    simp only [ballPhase]
    rw [e1, e2 _ (by simp [paddleWidth, ballRadius])]
    simp only [hv.2, paddleWidth, ballRadius]
    exact ⟨by norm_num, by omega⟩
  rcases scoring_cases (ballPhase s) d with ⟨hx, -⟩ | ⟨hx, -⟩ | ⟨-, -, e⟩
  · omega
  · simp only [canvasWidth] at hx; omega
  · rw [f7, f9, e]
    exact hb

/-- The ball after a tick in which the test of the right paddle succeeds. -/
theorem update_of_rightCollision (s : State) (d : Draws) (h : rightCollision s) :
    (update s d).ballX = 758 ∧ (update s d).ballSpeedX = -s.ballSpeedX ∧
      s.ballX + s.ballSpeedX > 758 := by
  obtain ⟨-, -, -, -, -, -, f7, -, f9, -⟩ := update_frame s d
  have hv := wallBounce_moveBall_x s
  have hno : leftPaddleHit (wallBounce (moveBall s)) = wallBounce (moveBall s) := by
    by_cases hc : leftCollision s
    · have e0 : leftPaddleHit (wallBounce (moveBall s)) =
          { wallBounce (moveBall s) with
            ballSpeedX := (wallBounce (moveBall s)).ballSpeedX * -1
            ballX := 20 + paddleWidth + ballRadius } := by
        simp only [leftPaddleHit]
        exact if_pos hc
      have e1 : (leftPaddleHit (wallBounce (moveBall s))).ballX = 42 := by
        rw [e0]
        simp [paddleWidth, ballRadius]
      have h1 := h.1
      rw [e1] at h1
      simp only [ballRadius, canvasWidth, paddleWidth] at h1
      omega
    · simp only [leftPaddleHit]
      exact if_neg hc
  have hx : s.ballX + s.ballSpeedX > 758 := by
    have h1 := h.1
    rw [hno, hv.1] at h1
    simp only [paddleWidth, ballRadius, canvasWidth] at h1
    omega
  have e1 : rightPaddleHit (leftPaddleHit (wallBounce (moveBall s))) =
      { leftPaddleHit (wallBounce (moveBall s)) with
        ballSpeedX := (leftPaddleHit (wallBounce (moveBall s))).ballSpeedX * -1
        ballX := canvasWidth - 20 - paddleWidth - ballRadius } := by
    simp only [rightPaddleHit]
    exact if_pos h
  have hb : (ballPhase s).ballX = 758 ∧ (ballPhase s).ballSpeedX = -s.ballSpeedX := by
    simp only [ballPhase]
    rw [e1]
    simp only [hno, hv.2, canvasWidth, paddleWidth, ballRadius]
    exact ⟨by norm_num, by omega⟩
  rcases scoring_cases (ballPhase s) d with ⟨hx2, -⟩ | ⟨hx2, -⟩ | ⟨-, -, e⟩
  · omega
  · simp only [canvasWidth] at hx2; omega
  · rw [f7, f9, e]
    exact ⟨hb.1, hb.2, hx⟩

theorem leftPaddleHit_x (u : State) :
    (leftPaddleHit u).ballX = 42 ∨ (leftPaddleHit u).ballX = u.ballX := by
  simp only [leftPaddleHit, paddleWidth, ballRadius]
  split_ifs
  · left; norm_num
  · right; rfl

/-- C18: in every state of every execution from the initial state, `ballX < 42` implies
`ballSpeedX = -6` and `ballX > 758` implies `ballSpeedX = 6`.  Hence a tick in which the
test of the left paddle succeeds leaves `ballSpeedX = 6`, one in which the test of the right
paddle succeeds leaves `ballSpeedX = -6`, and with the ball position and speed such a tick
leaves behind the test of the same paddle fails in the next tick. -/
theorem paddle_hit_sends_ball_away (es : List Event) (r : ℚ) (d : Draws) :
    ((run init es).ballX < 42 → (run init es).ballSpeedX = -6) ∧
    ((run init es).ballX > 758 → (run init es).ballSpeedX = 6) ∧
    (leftCollision (handleInput (run init es) r) →
      (update (handleInput (run init es) r) d).ballSpeedX = 6 ∧
      ∀ u : State, u.ballX = (update (handleInput (run init es) r) d).ballX →
        u.ballSpeedX = (update (handleInput (run init es) r) d).ballSpeedX →
        ¬ leftCollision u) ∧
    (rightCollision (handleInput (run init es) r) →
      (update (handleInput (run init es) r) d).ballSpeedX = -6 ∧
      ∀ u : State, u.ballX = (update (handleInput (run init es) r) d).ballX →
        u.ballSpeedX = (update (handleInput (run init es) r) d).ballSpeedX →
        ¬ rightCollision u) := by
  obtain ⟨i1, i2, i3⟩ := ballXInv_run es
  obtain ⟨j1, j2, j3⟩ := ballXInv_handleInput (run init es) r ⟨i1, i2, i3⟩
  refine ⟨i2, i3, ?_, ?_⟩
  · intro h
    obtain ⟨hx, hv⟩ := update_of_leftCollision _ d h
    have hw := wallBounce_moveBall_x (handleInput (run init es) r)
    have h1 := h.1
    rw [hw.1] at h1
    simp only [ballRadius, paddleWidth] at h1
    have hs : (handleInput (run init es) r).ballSpeedX = -6 := by
      rcases j1 with a | a
      · have := j2 (by omega)
        omega
      · exact a
    refine ⟨by omega, ?_⟩
    intro u e1 e2 hc
    have hu := wallBounce_moveBall_x u
    have h2 := hc.1
    rw [hu.1] at h2
    simp only [ballRadius, paddleWidth] at h2
    omega
  · intro h
    obtain ⟨hx, hv, hgt⟩ := update_of_rightCollision _ d h
    have hs : (handleInput (run init es) r).ballSpeedX = 6 := by
      rcases j1 with a | a
      · exact a
      · have := j3 (by omega)
        omega
    refine ⟨by omega, ?_⟩
    intro u e1 e2 hc
    have hu := wallBounce_moveBall_x u
    have h2 := hc.1
    simp only [ballRadius, paddleWidth, canvasWidth] at h2
    rcases leftPaddleHit_x (wallBounce (moveBall u)) with a | a
    · omega
    · rw [hu.1] at a
      omega

/-- Witness of `paddle_hit_sends_ball_away`: a ball passing the left paddle, a ball passing
the right paddle, a ball about to hit the left paddle and one about to hit the right
paddle. -/
theorem paddle_hit_sends_ball_away_witness :
    (run init leftPassRun).ballSpeedX = -6 ∧
    (run init (idleRun 61)).ballSpeedX = 6 ∧
    (update (handleInput (run init leftHitAhead) (1 / 2)) drawsHigh).ballSpeedX = 6 ∧
    (update (handleInput (run init rightHitAhead) (1 / 2)) drawsHigh).ballSpeedX = -6 :=
  ⟨(paddle_hit_sends_ball_away leftPassRun (1 / 2) drawsHigh).1 (by decide!),
    (paddle_hit_sends_ball_away (idleRun 61) (1 / 2) drawsHigh).2.1 (by decide!),
    ((paddle_hit_sends_ball_away leftHitAhead (1 / 2) drawsHigh).2.2.1
      (by unfold leftCollision; decide!)).1,
    ((paddle_hit_sends_ball_away rightHitAhead (1 / 2) drawsHigh).2.2.2
      (by unfold rightCollision; decide!)).1⟩

/-! ## C19: queued animation-frame callbacks -/

/-- C19 (code evaluated at the failing input): Start, Pause and Start again before the next
display refresh leave two `gameLoop` callbacks queued; the refresh runs both, so the ball
advances by two ticks (from 400 to 412, against 406 after a single Start), and two callbacks
are queued again. -/
theorem double_start_runs_two_ticks :
    (run init doubleStart).pending = 2 ∧
    (run init (doubleStart ++ [Event.refresh (fun _ => drawsHigh)])).ballX = 412 ∧
    (run init (doubleStart ++ [Event.refresh (fun _ => drawsHigh)])).pending = 2 ∧
    (run init [Event.start, Event.refresh (fun _ => drawsHigh)]).ballX = 406 := by
  decide!

end Pong
